import Mathlib

/-!
Verification of `scripts/generate-report.py` (security report generator).

The script is embedded shallowly: JSON documents decoded by `json.load`
become values of the inductive type `JVal`; the loosely-typed Python
dictionary accesses become total Lean functions returning
`Except String _`, where `.error _` models a raised Python exception
(the message content is irrelevant to every property proved here).
Each adapter (`parse_sarif`, `parse_npm_audit`, `parse_trivy_json`)
wraps its body in `try/except`, appending findings one at a time and
returning the accumulated list even when an exception was caught; this
is modelled by fold functions returning the accumulated list together
with a flag recording whether an exception was raised.
-/

set_option maxHeartbeats 1000000

/-- A JSON value as produced by Python's `json.load`: `None`, booleans,
ints, floats (modelled as rationals: every JSON literal is a finite
decimal), strings, arrays and objects (insertion-ordered key/value
lists; `json.load` yields unique keys). -/
inductive JVal where
  | jnull
  | jbool (b : Bool)
  | jint (n : Int)
  | jfloat (q : ℚ)
  | jstr (s : String)
  | jarr (xs : List JVal)
  | jobj (kvs : List (String × JVal))
deriving Repr

/-- Python `==` between JSON scalars, as used on dict keys: strings
compare as strings; numbers and booleans compare numerically
(`True == 1 == 1.0` in Python); values of unrelated kinds are unequal.
Containers never reach a comparison in this script (dict lookup raises
on unhashable keys first). -/
def pyEqScalar (a b : JVal) : Bool :=
  match a, b with
  | .jnull, .jnull => true
  | .jstr s, .jstr t => s == t
  | .jint n, .jint m => n == m
  | .jint n, .jfloat q => mkRat n 1 == q
  | .jfloat q, .jint n => q == mkRat n 1
  | .jfloat q, .jfloat r => q == r
  | .jbool x, .jbool y => x == y
  | .jbool x, .jint n => (if x then (1 : Int) else 0) == n
  | .jint n, .jbool x => n == (if x then (1 : Int) else 0)
  | .jbool x, .jfloat q => mkRat (if x then 1 else 0) 1 == q
  | .jfloat q, .jbool x => q == mkRat (if x then 1 else 0) 1
  | _, _ => false

/-- Character-level uppercase (Python `s.upper()`; agrees on the ASCII
labels these scanners emit). -/
def strUpper (s : String) : String := String.mk (s.data.map Char.toUpper)

/-- Character-level lowercase (Python `s.lower()`; agrees on ASCII). -/
def strLower (s : String) : String := String.mk (s.data.map Char.toLower)

/-- Python `s[:n]` on a string, by code points. -/
def strTake (s : String) (n : Nat) : String := String.mk (s.data.take n)

/-- Python `s.startswith(pre)`. -/
def strStarts (s pre : String) : Bool := pre.data.isPrefixOf s.data

/-- Substring test on character lists (Python `needle in hay`). -/
def isSubChars : List Char → List Char → Bool
  | n, [] => n.isEmpty
  | n, c :: t => n.isPrefixOf (c :: t) || isSubChars n t

/-- Join strings with a separator (Python `sep.join(xs)`). -/
def joinSep (sep : String) : List String → String
  | [] => ""
  | [x] => x
  | x :: y :: rest => x ++ sep ++ joinSep sep (y :: rest)

/-- Python truthiness (`if x:`) of a JSON-decoded value. -/
def pyTruthy : JVal → Bool
  | .jnull => false
  | .jbool b => b
  | .jint n => n != 0
  | .jfloat q => q != 0
  | .jstr s => !s.data.isEmpty
  | .jarr xs => !xs.isEmpty
  | .jobj kvs => !kvs.isEmpty

/-- Python `d.get(k, dflt)`: defined on dicts; any other receiver raises
`AttributeError` (the adapters call `.get` on values taken straight from
the document, which need not be objects). The first binding of a key is
returned; `json.load` never produces duplicate keys. -/
def objGetD (v : JVal) (k : String) (dflt : JVal) : Except String JVal :=
  match v with
  | .jobj kvs =>
    match kvs.find? (fun p => p.1 == k) with
    | some p => .ok p.2
    | none => .ok dflt
  | _ => .error ("AttributeError: get")

/-- Python `d[k]` with a string key: a dict either yields the value or
raises `KeyError`; every non-dict receiver raises `TypeError`. -/
def objIndex (v : JVal) (k : String) : Except String JVal :=
  match v with
  | .jobj kvs =>
    match kvs.find? (fun p => p.1 == k) with
    | some p => .ok p.2
    | none => .error ("KeyError")
  | _ => .error ("TypeError: subscript")

/-- Python `k in v` for a string `k`: key membership for dicts, element
membership for lists, substring test for strings; numbers, booleans and
`None` raise `TypeError`. -/
def pyContains (k : String) (v : JVal) : Except String Bool :=
  match v with
  | .jobj kvs => .ok (kvs.any (fun p => p.1 == k))
  | .jarr xs => .ok (xs.any (fun x => pyEqScalar x (.jstr k)))
  | .jstr s => .ok (isSubChars k.data s.data)
  | _ => .error ("TypeError: in")

/-- Python `for x in v`: lists iterate their elements.  A non-empty
string or dict would iterate characters resp. keys, but in every loop of
this script the first statement of the body calls `.get` on the element,
which raises on a string — so the document stops contributing at this
point either way, and we raise at the loop head; the empty string and
empty dict iterate zero times without error.  Numbers raise
`TypeError`. -/
def iterList (v : JVal) : Except String (List JVal) :=
  match v with
  | .jarr xs => .ok xs
  | .jstr s => if s.data.isEmpty then .ok [] else .error ("iteration reaches a non-dict element")
  | .jobj kvs => if kvs.isEmpty then .ok [] else .error ("iteration reaches a non-dict element")
  | _ => .error ("TypeError: not iterable")

/-- Python `d.items()`: defined only on dicts. -/
def pyItems (v : JVal) : Except String (List (String × JVal)) :=
  match v with
  | .jobj kvs => .ok kvs
  | _ => .error ("AttributeError: items")

/-- Lookup in a Python dict literal with string keys (the adapters'
`severity_map.get(key, dflt)`): an unhashable key (list or dict) raises
`TypeError`; any other non-matching key yields the default. -/
def pyDictGetStr (m : List (String × String)) (key : JVal) (dflt : String) :
    Except String String :=
  match key with
  | .jstr s =>
    match m.find? (fun p => p.1 == s) with
    | some p => .ok p.2
    | none => .ok dflt
  | .jarr _ => .error ("TypeError: unhashable")
  | .jobj _ => .error ("TypeError: unhashable")
  | _ => .ok dflt

/-- Lookup in a Python dict whose keys are arbitrary JSON scalars (the
SARIF `rules` mapping built by a dict comprehension): `d.get(k, dflt)`
raises on an unhashable key.  Equality is structural; Python would also
identify `1`, `1.0` and `True`, which never matters for SARIF rule ids
(strings). -/
def jdictGetD (m : List (JVal × JVal)) (key : JVal) (dflt : JVal) :
    Except String JVal :=
  match key with
  | .jarr _ => .error ("TypeError: unhashable")
  | .jobj _ => .error ("TypeError: unhashable")
  | _ =>
    match m.find? (fun p => pyEqScalar p.1 key) with
    | some p => .ok p.2
    | none => .ok dflt

/-- Store a binding in a JVal-keyed dict, replacing the first existing
binding of the key (Python dict assignment overwrites in place). -/
def jdictSet (m : List (JVal × JVal)) (key v : JVal) : List (JVal × JVal) :=
  match m with
  | [] => [(key, v)]
  | p :: rest => if pyEqScalar p.1 key then (key, v) :: rest else p :: jdictSet rest key v

/-- Split a character list at every dot (Python `str.split` for the
single-character separator used by float parsing). -/
def splitOnDot : List Char → List (List Char)
  | [] => [[]]
  | c :: rest =>
    if c == ('.' : Char) then [] :: splitOnDot rest
    else
      match splitOnDot rest with
      | h :: t => (c :: h) :: t
      | [] => [[c]]

/-- Value of a non-empty all-digit character list. -/
def digitsVal (cs : List Char) : Option Nat :=
  if cs.isEmpty then none
  else if cs.all (fun c => c.isDigit) then
    some (cs.foldl (fun n c => n * 10 + (c.toNat - 48)) 0)
  else none

/-- Python `float(s)` on a string, for the decimal forms
`[+-]digits[.digits]` (also `.5` and `5.`).  Python additionally accepts
surrounding whitespace, exponents, underscores, `inf` and `nan`; none of
those occur in these scanner documents, and on them this parser declines
where Python would succeed only for such exotic spellings. -/
def parseFloatStr (s : String) : Option ℚ :=
  let core : List Char → Option ℚ := fun body =>
    match splitOnDot body with
    | [a] =>
      match digitsVal a with
      | some n => some (mkRat n 1)
      | none => none
    | [a, b] =>
      if a.isEmpty && b.isEmpty then none
      else if a.all (fun c => c.isDigit) && b.all (fun c => c.isDigit) then
        let ip : Nat := a.foldl (fun n c => n * 10 + (c.toNat - 48)) 0
        let fp : Nat := b.foldl (fun n c => n * 10 + (c.toNat - 48)) 0
        some (mkRat (ip * 10 ^ b.length + fp) (10 ^ b.length))
      else none
    | _ => none
  match s.data with
  | c :: rest =>
    if c == ('-' : Char) then (core rest).map (fun q => -q)
    else if c == ('+' : Char) then core rest
    else core (c :: rest)
  | [] => none

/-- Python `float(x)` on a JSON-decoded value: numbers and booleans
convert, numeric strings parse, everything else raises. -/
def pyFloat (v : JVal) : Except String ℚ :=
  match v with
  | .jint n => .ok (mkRat n 1)
  | .jfloat q => .ok q
  | .jbool b => .ok (mkRat (if b then 1 else 0) 1)
  | .jstr s =>
    match parseFloatStr s with
    | some q => .ok q
    | none => .error ("ValueError: float")
  | _ => .error ("TypeError: float")

/-- Python `s.upper()`: defined only on strings. -/
def pyUpper (v : JVal) : Except String String :=
  match v with
  | .jstr s => .ok (strUpper s)
  | _ => .error ("AttributeError: upper")

/-- Python `s.startswith(pre)`: defined only on strings. -/
def pyStartswith (v : JVal) (pre : String) : Except String Bool :=
  match v with
  | .jstr s => .ok (strStarts s pre)
  | _ => .error ("AttributeError: startswith")

/-- Python `v[:n]`: slices strings and lists; every other receiver
raises `TypeError`. -/
def pySlice (v : JVal) (n : Nat) : Except String JVal :=
  match v with
  | .jarr xs => .ok (.jarr (xs.take n))
  | .jstr s => .ok (.jstr (strTake s n))
  | _ => .error ("TypeError: slice")

/-- The double-quote character, used by `pyRepr` for string quoting. -/
def quoteChar : String := String.singleton (Char.ofNat 39)

/-- Decimal rendering of a rational with a finite decimal expansion (the
only floats produced by decoding JSON documents); other rationals fall
back to a fraction rendering.  Python renders floats as their shortest
round-tripping decimal, which agrees on such values. -/
def floatRepr (q : ℚ) : String :=
  match (List.range 18).find? (fun e => (mkRat (q.num * (10 ^ e : Nat)) q.den).den == 1) with
  | some 0 => toString q.num ++ ".0"
  | some e =>
    let m := (mkRat (q.num * (10 ^ e : Nat)) q.den).num
    let sign := if m < 0 then "-" else ""
    let ds := toString m.natAbs
    let ds := if ds.length ≤ e then
        String.mk (List.replicate (e + 1 - ds.length) (Char.ofNat 48)) ++ ds
      else ds
    sign ++ String.mk (ds.data.take (ds.data.length - e)) ++ "." ++
      String.mk (ds.data.drop (ds.data.length - e))
  | none => toString q.num ++ "/" ++ toString q.den

/-- Python `repr(x)` of a JSON-decoded value (string escaping inside
quotes is omitted; no property proved here inspects it). -/
def pyRepr : JVal → String
  | .jnull => "None"
  | .jbool true => "True"
  | .jbool false => "False"
  | .jint n => toString n
  | .jfloat q => floatRepr q
  | .jstr s => quoteChar ++ s ++ quoteChar
  | .jarr xs =>
    "[" ++ joinSep (", ") (xs.attach.map (fun p => pyRepr p.1)) ++ "]"
  | .jobj kvs =>
    "\x7b" ++ joinSep (", ")
      (kvs.attach.map (fun p => quoteChar ++ p.1.1 ++ quoteChar ++ ": " ++ pyRepr p.1.2)) ++
      "\x7d"
termination_by v => sizeOf v
decreasing_by
  · have := List.sizeOf_lt_of_mem p.2
    simp only [JVal.jarr.sizeOf_spec]
    omega
  · have h1 := List.sizeOf_lt_of_mem p.2
    have h2 : sizeOf p.1.2 < sizeOf p.1 := by
      obtain ⟨a, b⟩ := p.1
      simp only [Prod.mk.sizeOf_spec]
      omega
    simp only [JVal.jobj.sizeOf_spec]
    omega

/-- Python `str(x)` of a JSON-decoded value, as used by the script's
f-strings: a string renders as itself, everything else as its repr. -/
def pyStr (v : JVal) : String :=
  match v with
  | .jstr s => s
  | _ => pyRepr v

/-- One security finding, mirroring the `Vulnerability` dataclass
(lines 26-39).  Python does not enforce the field annotations, so fields
that an adapter fills straight from the document keep type `JVal`;
`severity` is always a Lean `String` because each adapter produces it
through a string-typed path (a severity-map lookup or `.upper()`). -/
structure Vulnerability where
  id : JVal
  title : JVal
  severity : String
  description : JVal
  source : JVal
  file_path : JVal := .jstr ("")
  line_number : JVal := .jint 0
  cwe : JVal := .jstr ("")
  cvss : JVal := .jfloat 0
  remediation : JVal := .jstr ("")
  references : JVal := .jarr []
deriving Repr

/-- One scanner's batch, mirroring the `ScanResult` dataclass
(lines 42-48).  The summary dict is an insertion-ordered list of
severity/count bindings, as built by the collector's `defaultdict`. -/
structure ScanResult where
  scanner : String
  timestamp : String
  vulnerabilities : List Vulnerability
  summary : List (String × Nat)
deriving Repr

/-- The aggregated report, mirroring the `SecurityReport` dataclass
(lines 51-60). -/
structure SecurityReport where
  generated_at : String
  repository : String
  branch : String
  commit : String
  scan_results : List ScanResult
  total_vulnerabilities : List (String × Nat)
  recommendations : List String
deriving Repr

/-- The class constant `SEVERITY_ORDER` (line 66). -/
def SEVERITY_ORDER : List String :=
  [("CRITICAL"), ("HIGH"), ("MEDIUM"), ("LOW"), ("INFO")]

/-- The severity resolution of `parse_sarif` (lines 88-102): map the
native level through `severity_map` with default MEDIUM, then, when the
rule's properties carry a `security-severity` key, override by numeric
thresholds. -/
def sarifSeverity (level props : JVal) : Except String String :=
  match pyDictGetStr
      [(("error"), ("HIGH")), (("warning"), ("MEDIUM")), (("note"), ("LOW"))]
      level ("MEDIUM") with
  | .error e => .error e
  | .ok base =>
    match pyContains ("security-severity") props with
    | .error e => .error e
    | .ok false => .ok base
    | .ok true =>
      match objIndex props ("security-severity") with
      | .error e => .error e
      | .ok raw =>
        match pyFloat raw with
        | .error e => .error e
        | .ok score =>
          .ok (if score ≥ 9 then ("CRITICAL")
               else if score ≥ 7 then ("HIGH")
               else if score ≥ 4 then ("MEDIUM")
               else ("LOW"))

/-- The reference filter of `parse_sarif` (line 121): the list
comprehension keeps the tags that start with `http`; a non-string tag
raises inside the comprehension. -/
def sarifRefs : List JVal → Except String (List JVal)
  | [] => .ok []
  | t :: ts =>
    match pyStartswith t ("http") with
    | .error e => .error e
    | .ok b =>
      match sarifRefs ts with
      | .error e => .error e
      | .ok rest => .ok (if b then t :: rest else rest)

/-- `locations[0] if locations else {}` (line 105), after the `.get`
with default `[{}]` (line 104): a falsy value yields `{}`; a list yields
its head; a non-empty string yields its first character (a one-character
string in Python); dicts and numbers raise on `[0]`. -/
def pyHeadOrEmpty (v : JVal) : Except String JVal :=
  if pyTruthy v then
    match v with
    | .jarr (x :: _) => .ok x
    | .jstr s => .ok (.jstr (strTake s 1))
    | _ => .error ("TypeError: index")
  else .ok (.jobj [])

/-- The body of the `results` loop of `parse_sarif` (lines 85-123),
building one `Vulnerability`; any raise aborts the whole document's
`try` block.  Accesses occur in the source's evaluation order (the
keyword arguments of the `Vulnerability(...)` call evaluate left to
right). -/
def sarifResult (tool_name : JVal) (rules : List (JVal × JVal)) (result : JVal) :
    Except String Vulnerability := do
  let rule_id ← objGetD result ("ruleId") (.jstr (""))
  let rule ← jdictGetD rules rule_id (.jobj [])
  let level ← objGetD result ("level") (.jstr ("warning"))
  let props ← objGetD rule ("properties") (.jobj [])
  let severity ← sarifSeverity level props
  let locations ← objGetD result ("locations") (.jarr [.jobj []])
  let location ← pyHeadOrEmpty locations
  let physical_location ← objGetD location ("physicalLocation") (.jobj [])
  let artifact_location ← objGetD physical_location ("artifactLocation") (.jobj [])
  let region ← objGetD physical_location ("region") (.jobj [])
  let sd ← objGetD rule ("shortDescription") (.jobj [])
  let title ← objGetD sd ("text") rule_id
  let msg ← objGetD result ("message") (.jobj [])
  let description ← objGetD msg ("text") (.jstr (""))
  let uri ← objGetD artifact_location ("uri") (.jstr (""))
  let startLine ← objGetD region ("startLine") (.jint 0)
  let cwe ← objGetD props ("cwe") (.jstr (""))
  let ssRaw ← objGetD props ("security-severity") (.jint 0)
  let cvss ← pyFloat ssRaw
  let helpObj ← objGetD rule ("help") (.jobj [])
  let remediation ← objGetD helpObj ("text") (.jstr (""))
  let tagsRaw ← objGetD props ("tags") (.jarr [])
  let tags ← iterList tagsRaw
  let refs ← sarifRefs tags
  pure { id := rule_id, title := title, severity := severity,
         description := description, source := tool_name, file_path := uri,
         line_number := startLine, cwe := cwe, cvss := .jfloat cvss,
         remediation := remediation, references := .jarr refs }

/-- Inner loop of an adapter: process items in order, appending each
produced finding to the accumulator; a raise aborts with the findings
accumulated so far (the Boolean records that an exception was caught by
the adapter's `except` clause). -/
def scanFold {α : Type} (f : α → Except String Vulnerability) :
    List α → List Vulnerability → List Vulnerability × Bool
  | [], acc => (acc, false)
  | a :: rest, acc =>
    match f a with
    | .error _ => (acc, true)
    | .ok v => scanFold f rest (acc ++ [v])

/-- Nested adapter loop (SARIF runs, Trivy results): for each outer
item, a prelude extracts a context and an inner item list; a raise in
either the prelude or the inner loop aborts the whole document with the
findings accumulated so far. -/
def nestedFold {α β γ : Type} (pre : α → Except String (β × List γ))
    (f : β → γ → Except String Vulnerability) :
    List α → List Vulnerability → List Vulnerability × Bool
  | [], acc => (acc, false)
  | a :: rest, acc =>
    match pre a with
    | .error _ => (acc, true)
    | .ok (ctx, items) =>
      match scanFold (f ctx) items acc with
      | (acc2, true) => (acc2, true)
      | (acc2, false) => nestedFold pre f rest acc2

/-- Build the `rules` dict of `parse_sarif` (line 82): the dict
comprehension subscripts each rule with `['id']` (raising when a rule is
not an object or lacks the key) and lets a later duplicate id override
an earlier one. -/
def buildRules : List JVal → List (JVal × JVal) → Except String (List (JVal × JVal))
  | [], acc => .ok acc
  | r :: rest, acc =>
    match objIndex r ("id") with
    | .error e => .error e
    | .ok k => buildRules rest (jdictSet acc k r)

/-- Per-run prelude of `parse_sarif` (lines 80-84): extract the tool
name, the rules dict and the results list.  The source reads
`run.get('tool', {})` twice with the identical result; it is read
once here. -/
def sarifRunPre (run : JVal) :
    Except String ((JVal × List (JVal × JVal)) × List JVal) := do
  let tool ← objGetD run ("tool") (.jobj [])
  let driver ← objGetD tool ("driver") (.jobj [])
  let tool_name ← objGetD driver ("name") (.jstr ("Unknown"))
  let rulesRaw ← objGetD driver ("rules") (.jarr [])
  let rulesList ← iterList rulesRaw
  let rules ← buildRules rulesList []
  let resultsRaw ← objGetD run ("results") (.jarr [])
  let results ← iterList resultsRaw
  pure ((tool_name, rules), results)

/-- `parse_sarif` (lines 72-128).  The argument is the outcome of
`open` + `json.load`: `none` when reading or decoding raised (the whole
`try` body is then skipped).  The result pairs the returned
vulnerability list with the flag `true` when the `except` clause ran. -/
def parse_sarifE (doc : Option JVal) : List Vulnerability × Bool :=
  match doc with
  | none => ([], true)
  | some data =>
    match objGetD data ("runs") (.jarr []) with
    | .error _ => ([], true)
    | .ok runsRaw =>
      match iterList runsRaw with
      | .error _ => ([], true)
      | .ok runs =>
        nestedFold sarifRunPre (fun ctx => sarifResult ctx.1 ctx.2) runs []

/-- The list returned by `parse_sarif` (line 128): the accumulated
findings, whether or not an exception was caught. -/
def parse_sarif (doc : Option JVal) : List Vulnerability :=
  (parse_sarifE doc).1

/-- Body of the advisory loop of `parse_npm_audit` (lines 138-152),
with the keyword arguments evaluated in source order. -/
def npmItem (p : String × JVal) : Except String Vulnerability := do
  let name ← objGetD p.2 ("name") (.jstr (p.1))
  let sevRaw ← objGetD p.2 ("severity") (.jstr (""))
  let severity ← pyDictGetStr
      [(("critical"), ("CRITICAL")), (("high"), ("HIGH")),
       (("moderate"), ("MEDIUM")), (("low"), ("LOW"))]
      sevRaw ("MEDIUM")
  let description ← objGetD p.2 ("title") (.jstr (""))
  let fixAvailable ← objGetD p.2 ("fixAvailable") .jnull
  let remediation ← (match fixAvailable with
                     | .jobj _ => objGetD fixAvailable ("name") (.jstr (""))
                     | _ => .ok (.jstr ("")))
  let url ← objGetD p.2 ("url") (.jstr (""))
  pure { id := .jstr (p.1), title := name, severity := severity,
         description := description, source := .jstr ("npm audit"),
         file_path := .jstr ("package.json"),
         remediation := remediation,
         references := .jarr [url] }

/-- `parse_npm_audit` (lines 130-157), with the same conventions as
`parse_sarifE`. -/
def parse_npm_auditE (doc : Option JVal) : List Vulnerability × Bool :=
  match doc with
  | none => ([], true)
  | some data =>
    match objGetD data ("vulnerabilities") (.jobj []) with
    | .error _ => ([], true)
    | .ok vulnsRaw =>
      match pyItems vulnsRaw with
      | .error _ => ([], true)
      | .ok items => scanFold npmItem items []

/-- The list returned by `parse_npm_audit` (line 157). -/
def parse_npm_audit (doc : Option JVal) : List Vulnerability :=
  (parse_npm_auditE doc).1

/-- Body of the vulnerability loop of `parse_trivy_json`
(lines 170-182), with the keyword arguments evaluated in source order
(the `Title` default re-reads `VulnerabilityID`). -/
def trivyVuln (target vuln_data : JVal) : Except String Vulnerability := do
  let vid ← objGetD vuln_data ("VulnerabilityID") (.jstr (""))
  let vidDefault ← objGetD vuln_data ("VulnerabilityID") (.jstr (""))
  let title ← objGetD vuln_data ("Title") vidDefault
  let sevRaw ← objGetD vuln_data ("Severity") (.jstr ("UNKNOWN"))
  let severity ← pyUpper sevRaw
  let description ← objGetD vuln_data ("Description") (.jstr (""))
  let cvssObj ← objGetD vuln_data ("CVSS") (.jobj [])
  let nvd ← objGetD cvssObj ("nvd") (.jobj [])
  let v3 ← objGetD nvd ("V3Score") (.jint 0)
  let pkg ← objGetD vuln_data ("PkgName") (.jstr (""))
  let fixedVersion ← objGetD vuln_data ("FixedVersion") (.jstr ("N/A"))
  let refsRaw ← objGetD vuln_data ("References") (.jarr [])
  let refs ← pySlice refsRaw 3
  pure { id := vid, title := title, severity := severity,
         description := description, source := .jstr ("Trivy"),
         file_path := target, cvss := v3,
         remediation := .jstr
           ("Update " ++ pyStr pkg ++ " to " ++ pyStr fixedVersion),
         references := refs }

/-- Per-result prelude of `parse_trivy_json` (lines 167-170): extract
the target and the vulnerability list. -/
def trivyResultPre (result : JVal) : Except String (JVal × List JVal) := do
  let target ← objGetD result ("Target") (.jstr (""))
  let vRaw ← objGetD result ("Vulnerabilities") (.jarr [])
  let vs ← iterList vRaw
  pure (target, vs)

/-- `parse_trivy_json` (lines 159-187), with the same conventions as
`parse_sarifE`. -/
def parse_trivy_jsonE (doc : Option JVal) : List Vulnerability × Bool :=
  match doc with
  | none => ([], true)
  | some data =>
    match objGetD data ("Results") (.jarr []) with
    | .error _ => ([], true)
    | .ok resultsRaw =>
      match iterList resultsRaw with
      | .error _ => ([], true)
      | .ok results => nestedFold trivyResultPre trivyVuln results []

/-- The list returned by `parse_trivy_json` (line 187). -/
def parse_trivy_json (doc : Option JVal) : List Vulnerability :=
  (parse_trivy_jsonE doc).1

/-- Increment a key of an insertion-ordered count dict by `c`
(`summary[v.severity] += 1` / `total[severity] += count` via
`defaultdict(int)`): the first binding of the key is bumped, a missing
key is appended with value `c`. -/
def dictIncrBy (l : List (String × Nat)) (k : String) (c : Nat) :
    List (String × Nat) :=
  match l with
  | [] => [(k, c)]
  | p :: rest => if p.1 == k then (p.1, p.2 + c) :: rest else p :: dictIncrBy rest k c

/-- Lookup with default in a count dict (`d.get(s, 0)`). -/
def dictGetNat (l : List (String × Nat)) (k : String) (dflt : Nat) : Nat :=
  match l.find? (fun p => p.1 == k) with
  | some p => p.2
  | none => dflt

/-- The per-document summary computation of `collect_results`
(lines 198-200, repeated at 212-214 and 227-229): a `defaultdict(int)`
bumped once per vulnerability, in list order. -/
def buildSummary (vulns : List Vulnerability) : List (String × Nat) :=
  vulns.foldl (fun acc v => dictIncrBy acc v.severity 1) []

/-- The `ScanResult(...)` constructions of `collect_results`
(lines 202-207, 216-221, 231-236).  `datetime.now().isoformat()` is
impure; the capture instant is passed in as `now`. -/
def mkScanResult (scanner : String) (now : String) (vulns : List Vulnerability) :
    ScanResult :=
  { scanner := scanner, timestamp := now, vulnerabilities := vulns,
    summary := buildSummary vulns }

/-- One discovered input file: the stem and final suffix of its path
(from which scanner names and the Trivy `.json` check are computed) and
the outcome of `open` + `json.load` (`none` when either raised). -/
structure NamedDoc where
  stem : String
  suffix : String
  content : Option JVal

/-- The input directory as seen by `collect_results`: whether
`self.input_dir.exists()` holds, and the documents discovered by the
three `rglob` patterns, each in discovery order.  Files matching
`npm-audit.json` have a fixed name, so only their contents are kept. -/
structure InputDir where
  dirExists : Bool
  sarifFiles : List NamedDoc
  npmFiles : List (Option JVal)
  trivyFiles : List NamedDoc

/-- `collect_results` (lines 189-236): a missing input directory
returns with no results; otherwise each discovered document is parsed
by its adapter and appended as a `ScanResult` only when it produced at
least one vulnerability (`if vulns:`). -/
def collect_results (d : InputDir) (now : String) : List ScanResult :=
  if !d.dirExists then []
  else
    (d.sarifFiles.filterMap fun f =>
      let vulns := parse_sarif f.content
      if vulns.isEmpty then none else some (mkScanResult f.stem now vulns)) ++
    (d.npmFiles.filterMap fun c =>
      let vulns := parse_npm_audit c
      if vulns.isEmpty then none
      else some (mkScanResult ("npm-audit") now vulns)) ++
    (d.trivyFiles.filterMap fun f =>
      if f.suffix == ".json" then
        let vulns := parse_trivy_json f.content
        if vulns.isEmpty then none
        else some (mkScanResult ("trivy-" ++ f.stem) now vulns)
      else none)

/-- The totals accumulation of `generate_report` (lines 240-244): add
every summary entry of one result into the running `defaultdict`. -/
def addCounts (acc : List (String × Nat)) (entries : List (String × Nat)) :
    List (String × Nat) :=
  entries.foldl (fun a p => dictIncrBy a p.1 p.2) acc

/-- `total` after the loop of lines 242-244. -/
def reportTotals (results : List ScanResult) : List (String × Nat) :=
  results.foldl (fun a r => addCounts a r.summary) []

/-- The four recommendation strings of `_generate_recommendations`
(lines 264-287); adjacent Python string literals concatenate. -/
def criticalMsg (n : Nat) : String :=
  "CRITICAL: " ++ toString n ++
  " critical vulnerabilities found. These must be addressed immediately before deployment."

/-- Rule 2's message (lines 270-274). -/
def highMsg (n : Nat) : String :=
  "HIGH: " ++ toString n ++
  " high severity vulnerabilities found. Plan to remediate these within 7 days."

/-- Rule 3's message (lines 278-281). -/
def semgrepMsg : String :=
  "Consider enabling SAST scanning with Semgrep for code analysis."

/-- Rule 4's reassurance message (lines 283-287). -/
def reassuranceMsg : String :=
  "No critical or high severity vulnerabilities found. Continue monitoring and keep dependencies updated."

/-- Python `'semgrep' in s.lower()` (line 278). -/
def hasSemgrep (s : String) : Bool :=
  isSubChars ("semgrep").data (strLower s).data

/-- `_generate_recommendations` (lines 258-289), a function of the
collected scan results. -/
def generateRecommendations (results : List ScanResult) : List String :=
  let total_critical := (results.map (fun r => dictGetNat r.summary ("CRITICAL") 0)).sum
  let total_high := (results.map (fun r => dictGetNat r.summary ("HIGH") 0)).sum
  let recs :=
    (if total_critical > 0 then [criticalMsg total_critical] else []) ++
    (if total_high > 0 then [highMsg total_high] else []) ++
    (if !(results.map (fun r => r.scanner)).any hasSemgrep then [semgrepMsg] else [])
  if recs.isEmpty then [reassuranceMsg] else recs

/-- `generate_report` (lines 238-256).  The environment variables
`GITHUB_REPOSITORY`, `GITHUB_REF_NAME` and `GITHUB_SHA` are passed in as
optional values, each defaulting independently to `unknown`; the commit
is truncated to its first 8 characters; `datetime.now()` is passed in
as `now`. -/
def generate_report (results : List ScanResult)
    (repoEnv branchEnv commitEnv : Option String) (now : String) :
    SecurityReport :=
  { generated_at := now,
    repository := repoEnv.getD ("unknown"),
    branch := branchEnv.getD ("unknown"),
    commit := strTake (commitEnv.getD ("unknown")) 8,
    scan_results := results,
    total_vulnerabilities := reportTotals results,
    recommendations := generateRecommendations results }

/-- Sequential line production with exception propagation: the renderer
builds its `lines` list left to right, and an uncaught raise (string
slicing of an unsliceable remediation value) aborts `output_markdown`
entirely. -/
def linesFor {α : Type} (g : α → Except String (List String)) :
    List α → Except String (List String)
  | [] => .ok []
  | x :: xs =>
    match g x with
    | .error e => .error e
    | .ok ls =>
      match linesFor g xs with
      | .error e => .error e
      | .ok rest => .ok (ls ++ rest)

/-- The lines appended for one listed finding (lines 346-352): the
title bullet, the file line when `file_path` is truthy, the first 100
characters of the remediation when truthy, and a blank line. -/
def vulnLines (v : Vulnerability) : Except String (List String) :=
  let l1 := "- **" ++ pyStr v.title ++ "** (" ++ pyStr v.id ++ ")"
  let fileLs :=
    if pyTruthy v.file_path then
      ["  - File: `" ++ pyStr v.file_path ++ "`:" ++ pyStr v.line_number]
    else []
  match (if pyTruthy v.remediation then
           (pySlice v.remediation 100).map (fun r => ["  - Fix: " ++ pyStr r])
         else .ok []) with
  | .error e => .error e
  | .ok fixLs => .ok ([l1] ++ fileLs ++ fixLs ++ [""])

/-- The lines appended for one severity group of one scanner
(lines 341-356): nothing when the group is empty, else a heading, the
first 10 findings, and a `...and N more` suffix when the group holds
more than 10. -/
def groupLines (severity : String) (vulns : List Vulnerability) :
    Except String (List String) :=
  if vulns.isEmpty then .ok []
  else
    match linesFor vulnLines (vulns.take 10) with
    | .error e => .error e
    | .ok body =>
      .ok (["#### " ++ severity ++ " (" ++ toString vulns.length ++ ")", ""] ++
           body ++
           (if vulns.length > 10 then
              ["  *...and " ++ toString (vulns.length - 10) ++ " more*", ""]
            else []))

/-- The per-severity grouping of one scanner's findings (lines 336-338):
a `defaultdict(list)` filled in list order. -/
def buildGroups (vulns : List Vulnerability) :
    List (String × List Vulnerability) :=
  vulns.foldl (fun acc v => dictAppendAt acc v.severity v) []
where
  /-- Append one value to the first binding of the key, or append a new
  singleton binding at the end. -/
  dictAppendAt (l : List (String × List Vulnerability)) (k : String)
      (v : Vulnerability) : List (String × List Vulnerability) :=
    match l with
    | [] => [(k, [v])]
    | p :: rest =>
      if p.1 == k then (p.1, p.2 ++ [v]) :: rest
      else p :: dictAppendAt rest k v

/-- `by_severity.get(severity, [])` (line 341). -/
def groupsGet (l : List (String × List Vulnerability)) (k : String) :
    List Vulnerability :=
  match l.find? (fun p => p.1 == k) with
  | some p => p.2
  | none => []

/-- The detail section of one scanner (lines 327-356): a heading, then
either the no-findings note or the canonical-order severity groups. -/
def sectionLines (r : ScanResult) : Except String (List String) :=
  if r.vulnerabilities.isEmpty then
    .ok (["### " ++ r.scanner, ""] ++ ["No vulnerabilities found.", ""])
  else
    match linesFor
        (fun s => groupLines s (groupsGet (buildGroups r.vulnerabilities) s))
        SEVERITY_ORDER with
    | .error e => .error e
    | .ok gs => .ok (["### " ++ r.scanner, ""] ++ gs)

/-- The fixed header block of `output_markdown` (lines 302-314). -/
def mdHeader (report : SecurityReport) : List String :=
  ["# Security Scan Report", "",
   "**Generated:** " ++ report.generated_at,
   "**Repository:** " ++ report.repository,
   "**Branch:** " ++ report.branch,
   "**Commit:** " ++ report.commit,
   "", "## Summary", "",
   "| Severity | Count |",
   "|----------|-------|"]

/-- The severity summary table rows (lines 316-318), one per canonical
severity in fixed order. -/
def mdTableRows (report : SecurityReport) : List String :=
  SEVERITY_ORDER.map (fun severity =>
    "| " ++ severity ++ " | " ++
    toString (dictGetNat report.total_vulnerabilities severity 0) ++ " |")

/-- The `lines` list built by `output_markdown` (lines 300-357). -/
def output_markdown_lines (report : SecurityReport) :
    Except String (List String) :=
  match linesFor sectionLines report.scan_results with
  | .error e => .error e
  | .ok sections =>
    .ok (mdHeader report ++ mdTableRows report ++
         ["", "## Recommendations", ""] ++
         report.recommendations.map (fun rec => "- " ++ rec) ++
         ["", "## Detailed Findings", ""] ++
         sections)

/-- `output_markdown` (line 358): the lines joined by newlines; an
uncaught raise propagates to the caller. -/
def output_markdown (report : SecurityReport) : Except String String :=
  match output_markdown_lines report with
  | .error e => .error e
  | .ok ls => .ok (joinSep ("\n") ls)

/-- Concrete trivy document whose single vulnerability carries the
native label `negligible`. -/
def trivyDocNeg : JVal :=
  .jobj [(("Results"), .jarr [ .jobj [(("Target"), .jstr ("img")),
    (("Vulnerabilities"), .jarr [ .jobj [(("Severity"), .jstr ("negligible"))] ])] ])]

/-- Concrete SARIF document with one `error`-level result whose rule
carries `security-severity: 9.5` (Scenario A of the specification). -/
def scenADoc : JVal :=
  .jobj [(("runs"), .jarr [ .jobj [
    (("tool"), .jobj [(("driver"), .jobj [(("name"), .jstr ("semgrep")),
      (("rules"), .jarr [ .jobj [(("id"), .jstr ("R1")),
        (("properties"), .jobj [(("security-severity"), .jstr ("9.5")),
          (("tags"), .jarr [.jstr ("https://cwe.example/89"), .jstr ("security")])])] ])])]),
    (("results"), .jarr [ .jobj [(("ruleId"), .jstr ("R1")), (("level"), .jstr ("error"))] ])] ])]

/-- Concrete SARIF document whose second result raises mid-parse (its
`level` is a list, which the severity map lookup cannot hash) after the
first result was already appended. -/
def badSarifDoc : JVal :=
  .jobj [(("runs"), .jarr [ .jobj [
    (("tool"), .jobj [(("driver"), .jobj [(("name"), .jstr ("T"))])]),
    (("results"), .jarr [ .jobj [], .jobj [(("level"), .jarr [])] ])] ])]

/-- Concrete npm-audit document whose single advisory lacks a `url`
field, so its references become `[""]`. -/
def npmNoUrlDoc : JVal :=
  .jobj [(("vulnerabilities"), .jobj [(("adv1"),
    .jobj [(("severity"), .jstr ("moderate"))])])]

/-- A minimal finding used to build concrete scan results. -/
def sampleVuln (sev : String) : Vulnerability :=
  { id := .jstr ("X"), title := .jstr ("T"), severity := sev,
    description := .jstr (""), source := .jstr ("S") }

/-- Default finding (only used by `List.headI` in closed witness
statements). -/
instance : Inhabited Vulnerability := ⟨sampleVuln ("INFO")⟩

/-- Default scan result (only used by `List.headI` in closed witness
statements). -/
instance : Inhabited ScanResult :=
  ⟨{ scanner := (""), timestamp := (""), vulnerabilities := [], summary := [] }⟩

/-- A discovered SARIF file that fails to decode. -/
def failFile : NamedDoc := { stem := ("broken"), suffix := (".sarif"), content := none }

/-- A discovered SARIF file holding the Scenario A document. -/
def scenAFile : NamedDoc := { stem := ("semgrep-scan"), suffix := (".sarif"), content := some scenADoc }

/-- An input directory holding only the Scenario A SARIF file. -/
def scenADir : InputDir :=
  { dirExists := true, sarifFiles := [scenAFile], npmFiles := [], trivyFiles := [] }

/-- Extract the value of a successful computation (used only to state
closed witness facts about concrete runs). -/
def okOr {α : Type} (e : Except String α) (dflt : α) : α :=
  match e with
  | .ok a => a
  | .error _ => dflt

/-- A bullet line of the detail sections: the only renderer lines that
begin with the four characters of a finding header. -/
def isBullet (l : String) : Bool := ("- **").data.isPrefixOf l.data

/-- The truncation suffix line for a group that omitted `n` findings
(line 355). -/
def moreLine (n : Nat) : String := "  *...and " ++ toString n ++ " more*"

/-- Bindings of a dict built by the collector have pairwise distinct
keys (Python dicts cannot repeat a key). -/
def keysNodup (l : List (String × Nat)) : Prop := (l.map Prod.fst).Nodup

/-- Two concrete scanner batches used to witness the totals
invariant. -/
def c3Results : List ScanResult :=
  [mkScanResult ("scan-a") ("t") [sampleVuln ("HIGH")],
   mkScanResult ("scan-b") ("t") [sampleVuln ("HIGH"), sampleVuln ("LOW")]]

/-- Rule properties carrying the numeric score 9.5 (as SARIF encodes
it, a string). -/
def c5props : JVal := .jobj [(("security-severity"), .jstr ("9.5"))]

/-- A single semgrep-named scanner batch with one LOW finding, on which
only the reassurance rule fires. -/
def c6Results : List ScanResult :=
  [mkScanResult ("semgrep-scan") ("t") [sampleVuln ("LOW")]]

/-- A concrete report over the two witness batches. -/
def c9Report : SecurityReport := generate_report c3Results none none none ("t")

/-- The lines the renderer produces for `c9Report`. -/
def w9Lines : List String := okOr (output_markdown_lines c9Report) []

/-- Twelve HIGH findings, enough to trigger the truncation suffix. -/
def c9Group : List Vulnerability := List.replicate 12 (sampleVuln ("HIGH"))

/-- The lines of the severity group rendered from `c9Group`. -/
def w9GroupLines : List String := okOr (groupLines ("HIGH") c9Group) []

/-- A finding with the non-canonical severity `UNKNOWN` (as the trivy
adapter produces when the document lacks a `Severity`). -/
def c10Vuln : Vulnerability := sampleVuln ("UNKNOWN")

/-- The scanner batch holding only the `UNKNOWN` finding. -/
def c10Result : ScanResult := mkScanResult ("trivy-img") ("t") [c10Vuln]

/-- The detail section rendered for `c10Result`. -/
def w10Section : List String := okOr (sectionLines c10Result) []

/-- Sum of the counts of a summary dict (`sum(r.summary.values())`). -/
def dictSumVals (l : List (String × Nat)) : Nat := (l.map Prod.snd).sum

/-- Sum of the counts bound to one key (equals the single binding in a
duplicate-free dict; used to reason about the totals accumulation). -/
def esum (es : List (String × Nat)) (s : String) : Nat :=
  ((es.filter (fun p => p.1 == s)).map Prod.snd).sum

/-- Theorems.  The bind-decomposition helpers come first. -/
theorem ebind_def {α β : Type} (x : Except String α) (f : α → Except String β) :
    x >>= f = x.bind f := rfl

/-- Decompose a successful bind. -/
theorem ebind_ok {α β : Type} {x : Except String α} {f : α → Except String β}
    {b : β} : x.bind f = .ok b ↔ ∃ a, x = .ok a ∧ f a = .ok b := by
  cases x <;> simp [Except.bind]

/-- Decompose a successful pure. -/
theorem epure_ok {α : Type} {a b : α} :
    (pure a : Except String α) = .ok b ↔ a = b := by
  constructor
  · intro h
    cases h
    rfl
  · intro h
    cases h
    rfl

/-- Every finding accumulated by the inner adapter loop either was in
the accumulator already or is the successful output of the item
function on some processed item. -/
theorem scanFold_mem {α : Type} {f : α → Except String Vulnerability}
    {l : List α} {acc : List Vulnerability} {v : Vulnerability}
    (h : v ∈ (scanFold f l acc).1) :
    v ∈ acc ∨ ∃ a ∈ l, f a = .ok v := by
  induction l generalizing acc with
  | nil => exact Or.inl h
  | cons a rest ih =>
    rw [scanFold] at h
    cases hfa : f a with
    | error e =>
      rw [hfa] at h
      exact Or.inl h
    | ok w =>
      rw [hfa] at h
      rcases ih h with hmem | ⟨b, hb, hfb⟩
      · rcases List.mem_append.mp hmem with h1 | h1
        · exact Or.inl h1
        · rcases List.mem_singleton.mp h1 with rfl
          exact Or.inr ⟨a, List.mem_cons_self _ _, hfa⟩
      · exact Or.inr ⟨b, List.mem_cons_of_mem _ hb, hfb⟩

/-- Every finding accumulated by the nested adapter loop either was in
the accumulator already or arose from one processed inner item of one
outer item. -/
theorem nestedFold_mem {α β γ : Type} {pre : α → Except String (β × List γ)}
    {f : β → γ → Except String Vulnerability} {l : List α}
    {acc : List Vulnerability} {v : Vulnerability}
    (h : v ∈ (nestedFold pre f l acc).1) :
    v ∈ acc ∨ ∃ a ∈ l, ∃ ctx items, pre a = .ok (ctx, items) ∧
      ∃ it ∈ items, f ctx it = .ok v := by
  induction l generalizing acc with
  | nil => exact Or.inl h
  | cons a rest ih =>
    rw [nestedFold] at h
    cases hpre : pre a with
    | error e =>
      rw [hpre] at h
      exact Or.inl h
    | ok ci =>
      obtain ⟨ctx, items⟩ := ci
      rw [hpre] at h
      have h2 : v ∈ (match scanFold (f ctx) items acc with
          | (acc2, true) => (acc2, true)
          | (acc2, false) => nestedFold pre f rest acc2).1 := h
      cases hsf : scanFold (f ctx) items acc with
      | mk acc2 errored =>
        rw [hsf] at h2
        have hacc2 : v ∈ acc2 → v ∈ acc ∨ ∃ b ∈ a :: rest, ∃ ctx2 items2,
            pre b = .ok (ctx2, items2) ∧ ∃ it ∈ items2, f ctx2 it = .ok v := by
          intro hin
          have hs := @scanFold_mem _ (f ctx) items acc v
          rw [hsf] at hs
          rcases hs hin with h1 | ⟨it, hit, hfit⟩
          · exact Or.inl h1
          · exact Or.inr ⟨a, List.mem_cons_self _ _, ctx, items, hpre, it, hit, hfit⟩
        cases errored with
        | true => exact hacc2 h2
        | false =>
          have h3 : v ∈ (nestedFold pre f rest acc2).1 := h2
          rcases ih h3 with h1 | ⟨b, hb, ctx2, items2, hpre2, it, hit, hfit⟩
          · exact hacc2 h1
          · exact Or.inr ⟨b, List.mem_cons_of_mem _ hb, ctx2, items2, hpre2, it, hit, hfit⟩

/-- A successful severity-map lookup yields a value of the map or the
default. -/
theorem pyDictGetStr_ok {m : List (String × String)} {key : JVal}
    {dflt s : String} (h : pyDictGetStr m key dflt = .ok s) :
    s ∈ m.map Prod.snd ∨ s = dflt := by
  unfold pyDictGetStr at h
  split at h
  · rename_i t
    cases hf : List.find? (fun p => p.1 == t) m with
    | none =>
      rw [hf] at h
      cases h
      exact Or.inr rfl
    | some p =>
      rw [hf] at h
      cases h
      exact Or.inl (List.mem_map_of_mem Prod.snd (List.mem_of_find?_eq_some hf))
  · exact Except.noConfusion h
  · exact Except.noConfusion h
  · cases h
    exact Or.inr rfl

/-- The SARIF severity resolution only ever produces canonical
severities. -/
theorem sarifSeverity_canon {level props : JVal} {s : String}
    (h : sarifSeverity level props = .ok s) : s ∈ SEVERITY_ORDER := by
  unfold sarifSeverity at h
  split at h
  · exact Except.noConfusion h
  · rename_i base hbase
    split at h
    · exact Except.noConfusion h
    · cases h
      rcases pyDictGetStr_ok hbase with hm | hd
      · simp only [List.map, List.mem_cons, List.mem_singleton] at hm
        rcases hm with rfl | rfl | rfl | hf
        · simp [SEVERITY_ORDER]
        · simp [SEVERITY_ORDER]
        · simp [SEVERITY_ORDER]
        · simp at hf
      · subst hd
        simp [SEVERITY_ORDER]
    · split at h
      · exact Except.noConfusion h
      · split at h
        · exact Except.noConfusion h
        · cases h
          split
          · simp [SEVERITY_ORDER]
          · split
            · simp [SEVERITY_ORDER]
            · split
              · simp [SEVERITY_ORDER]
              · simp [SEVERITY_ORDER]

/-- A finding built by the SARIF result loop carries the severity the
two-layer resolution produced, hence a canonical one. -/
theorem sarifResult_sev {tool_name : JVal} {rules : List (JVal × JVal)}
    {result : JVal} {v : Vulnerability}
    (h : sarifResult tool_name rules result = .ok v) :
    v.severity ∈ SEVERITY_ORDER := by
  simp only [sarifResult, ebind_def, ebind_ok, epure_ok] at h
  obtain ⟨a1, e1, a2, e2, a3, e3, a4, e4, sev, hsev, a6, e6, a7, e7, a8, e8,
    a9, e9, a10, e10, a11, e11, a12, e12, a13, e13, a14, e14, a15, e15,
    a16, e16, a17, e17, a18, e18, a19, e19, a20, e20, a21, e21, a22, e22,
    a23, e23, a24, e24, hfin⟩ := h
  subst hfin
  exact sarifSeverity_canon hsev

/-- A finding built by the npm advisory loop carries a canonical
severity (a severity-map value or the default `MEDIUM`). -/
theorem npmItem_sev {p : String × JVal} {v : Vulnerability}
    (h : npmItem p = .ok v) : v.severity ∈ SEVERITY_ORDER := by
  simp only [npmItem, ebind_def, ebind_ok, epure_ok] at h
  obtain ⟨a1, e1, a2, e2, sev, hsev, a4, e4, a5, e5, a6, e6, a7, e7, hfin⟩ := h
  subst hfin
  rcases pyDictGetStr_ok hsev with hm | hd
  · simp only [List.map, List.mem_cons, List.mem_singleton] at hm
    rcases hm with rfl | rfl | rfl | rfl | hf
    · simp [SEVERITY_ORDER]
    · simp [SEVERITY_ORDER]
    · simp [SEVERITY_ORDER]
    · simp [SEVERITY_ORDER]
    · simp at hf
  · subst hd
    simp [SEVERITY_ORDER]

/-- Every finding returned by `parse_sarif` has a canonical severity. -/
theorem parse_sarif_sev {doc : Option JVal} {v : Vulnerability}
    (h : v ∈ parse_sarif doc) : v.severity ∈ SEVERITY_ORDER := by
  cases doc with
  | none => simp [parse_sarif, parse_sarifE] at h
  | some data =>
    have h2 : v ∈ (match objGetD data ("runs") (.jarr []) with
        | .error _ => (([] : List Vulnerability), true)
        | .ok runsRaw =>
          match iterList runsRaw with
          | .error _ => ([], true)
          | .ok runs =>
            nestedFold sarifRunPre (fun ctx => sarifResult ctx.1 ctx.2) runs []).1 := h
    cases hg : objGetD data ("runs") (.jarr []) with
    | error e =>
      rw [hg] at h2
      simp at h2
    | ok runsRaw =>
      rw [hg] at h2
      have h3 : v ∈ (match iterList runsRaw with
          | .error _ => (([] : List Vulnerability), true)
          | .ok runs =>
            nestedFold sarifRunPre (fun ctx => sarifResult ctx.1 ctx.2) runs []).1 := h2
      cases hi : iterList runsRaw with
      | error e =>
        rw [hi] at h3
        simp at h3
      | ok runs =>
        rw [hi] at h3
        rcases nestedFold_mem h3 with h1 | ⟨a, _, ctx, items, _, it, _, hok⟩
        · simp at h1
        · exact sarifResult_sev hok

/-- Every finding returned by `parse_npm_audit` has a canonical
severity. -/
theorem parse_npm_audit_sev {doc : Option JVal} {v : Vulnerability}
    (h : v ∈ parse_npm_audit doc) : v.severity ∈ SEVERITY_ORDER := by
  cases doc with
  | none => simp [parse_npm_audit, parse_npm_auditE] at h
  | some data =>
    have h2 : v ∈ (match objGetD data ("vulnerabilities") (.jobj []) with
        | .error _ => (([] : List Vulnerability), true)
        | .ok vulnsRaw =>
          match pyItems vulnsRaw with
          | .error _ => ([], true)
          | .ok items => scanFold npmItem items []).1 := h
    cases hg : objGetD data ("vulnerabilities") (.jobj []) with
    | error e =>
      rw [hg] at h2
      simp at h2
    | ok vulnsRaw =>
      rw [hg] at h2
      have h3 : v ∈ (match pyItems vulnsRaw with
          | .error _ => (([] : List Vulnerability), true)
          | .ok items => scanFold npmItem items []).1 := h2
      cases hi : pyItems vulnsRaw with
      | error e =>
        rw [hi] at h3
        simp at h3
      | ok items =>
        rw [hi] at h3
        rcases scanFold_mem h3 with h1 | ⟨a, _, hok⟩
        · simp at h1
        · exact npmItem_sev hok

/-- C1 (amended): every Vulnerability produced by `parse_sarif` or
`parse_npm_audit` carries one of the five canonical severities.  The
claim as frozen also asserts this of `parse_trivy_json`, which instead
passes the uppercased native label through (see the counterexample). -/
theorem c1_sarif_npm_severity_canonical :
    (∀ (doc : Option JVal) (v : Vulnerability),
        v ∈ parse_sarif doc → v.severity ∈ SEVERITY_ORDER) ∧
    (∀ (doc : Option JVal) (v : Vulnerability),
        v ∈ parse_npm_audit doc → v.severity ∈ SEVERITY_ORDER) :=
  ⟨fun _ _ h => parse_sarif_sev h, fun _ _ h => parse_npm_audit_sev h⟩

/-- C1 counterexample: the trivy adapter emits the non-canonical
severity `NEGLIGIBLE` for a document whose native label is
`negligible`. -/
theorem c1_counterexample :
    ∃ v ∈ parse_trivy_json (some trivyDocNeg), v.severity ∉ SEVERITY_ORDER := by
  refine ⟨(parse_trivy_json (some trivyDocNeg)).headI, ?_, ?_⟩
  · rw [show parse_trivy_json (some trivyDocNeg) =
        (parse_trivy_json (some trivyDocNeg)).headI :: [] from rfl]
    exact List.mem_cons_self _ _
  · rw [show (parse_trivy_json (some trivyDocNeg)).headI.severity =
        ("NEGLIGIBLE") from rfl]
    decide

/-- C1 witness: the single finding of the concrete Scenario A document
is produced by `parse_sarif` and indeed carries a canonical severity. -/
theorem c1_witness :
    (parse_sarif (some scenADoc)).headI.severity ∈ SEVERITY_ORDER :=
  c1_sarif_npm_severity_canonical.1 (some scenADoc)
    (parse_sarif (some scenADoc)).headI
    (by
      rw [show parse_sarif (some scenADoc) =
          (parse_sarif (some scenADoc)).headI :: [] from rfl]
      exact List.mem_cons_self _ _)

/-- C2 (amended): a document that fails to decode contributes zero
findings and is recorded as a caught error; a caught error never
removes the result of any other discovered document (the collector
processes each file independently); but (see the counterexample) a
mid-parse error returns the findings accumulated before the raise,
which need not be an empty sequence. -/
theorem c2_decode_failure_local :
    (parse_sarifE none = ([], true) ∧ parse_npm_auditE none = ([], true) ∧
     parse_trivy_jsonE none = ([], true)) ∧
    (∀ (f : NamedDoc) (xs ys : List NamedDoc) (npms : List (Option JVal))
       (trivys : List NamedDoc) (now : String),
       parse_sarif f.content = [] →
       collect_results ⟨true, xs ++ f :: ys, npms, trivys⟩ now =
         collect_results ⟨true, xs ++ ys, npms, trivys⟩ now) := by
  refine ⟨⟨rfl, rfl, rfl⟩, ?_⟩
  intro f xs ys npms trivys now h
  simp [collect_results, List.filterMap_append, List.filterMap_cons, h]

/-- C2 counterexample: on a SARIF document whose second result raises,
the adapter catches the error yet returns the one finding accumulated
before it — not an empty sequence. -/
theorem c2_counterexample :
    (parse_sarifE (some badSarifDoc)).2 = true ∧
    (parse_sarifE (some badSarifDoc)).1 ≠ [] := by
  refine ⟨rfl, ?_⟩
  intro hnil
  have hl : (parse_sarifE (some badSarifDoc)).1.length = 1 := rfl
  rw [hnil] at hl
  simp at hl

/-- C2 witness: inserting a SARIF file that fails to decode leaves the
collected results unchanged. -/
theorem c2_witness :
    collect_results ⟨true, [failFile], [], []⟩ ("t") =
      collect_results ⟨true, [], [], []⟩ ("t") :=
  c2_decode_failure_local.2 failFile [] [] [] [] ("t") rfl

/-- Lookup in a cons cell of a count dict. -/
theorem dictGetNat_cons (p : String × Nat) (l : List (String × Nat))
    (s : String) (d : Nat) :
    dictGetNat (p :: l) s d = if p.1 == s then p.2 else dictGetNat l s d := by
  by_cases h : p.1 = s <;> simp [dictGetNat, List.find?_cons, h]

/-- Bumping key `k` by `c` changes exactly the entry read back at `k`. -/
theorem dictGetNat_incrBy (l : List (String × Nat)) (k s : String) (c : Nat) :
    dictGetNat (dictIncrBy l k c) s 0 =
      dictGetNat l s 0 + (if k == s then c else 0) := by
  induction l with
  | nil =>
    show dictGetNat [(k, c)] s 0 = dictGetNat [] s 0 + _
    rw [dictGetNat_cons]
    by_cases h : k = s <;> simp [h, dictGetNat]
  | cons p rest ih =>
    show dictGetNat (if p.1 == k then (p.1, p.2 + c) :: rest
        else p :: dictIncrBy rest k c) s 0 = _
    by_cases hpk : p.1 = k
    · rw [if_pos (by simp [hpk])]
      rw [dictGetNat_cons, dictGetNat_cons]
      by_cases hps : p.1 = s
      · have hks : k = s := hpk ▸ hps
        simp [hps, hks]
      · have hks : ¬ k = s := fun h => hps (hpk.trans h)
        simp [hps, hks]
    · rw [if_neg (by simp [hpk])]
      rw [dictGetNat_cons, ih, dictGetNat_cons]
      by_cases hps : p.1 = s
      · have hks : ¬ k = s := fun h => hpk (hps.trans h.symm)
        simp [hps, hks]
      · simp [hps]

/-- Bumping a key adds `c` to the total of the counts. -/
theorem dictSumVals_incrBy (l : List (String × Nat)) (k : String) (c : Nat) :
    dictSumVals (dictIncrBy l k c) = dictSumVals l + c := by
  induction l with
  | nil => simp [dictIncrBy, dictSumVals]
  | cons p rest ih =>
    show dictSumVals (if p.1 == k then (p.1, p.2 + c) :: rest
        else p :: dictIncrBy rest k c) = _
    by_cases hpk : p.1 = k
    · rw [if_pos (by simp [hpk])]
      simp [dictSumVals]
      omega
    · rw [if_neg (by simp [hpk])]
      simp only [dictSumVals, List.map_cons, List.sum_cons] at ih ⊢
      omega

/-- The summary built from a vulnerability list counts, at every key,
exactly the vulnerabilities with that severity. -/
theorem buildSummary_get (vulns : List Vulnerability) (s : String) :
    dictGetNat (buildSummary vulns) s 0 =
      vulns.countP (fun v => v.severity == s) := by
  suffices h : ∀ acc, dictGetNat (vulns.foldl
      (fun a v => dictIncrBy a v.severity 1) acc) s 0 =
      dictGetNat acc s 0 + vulns.countP (fun v => v.severity == s) by
    have := h []
    simpa [buildSummary, dictGetNat] using this
  induction vulns with
  | nil =>
    intro acc
    simp
  | cons v rest ih =>
    intro acc
    rw [List.foldl_cons, ih, dictGetNat_incrBy, List.countP_cons]
    by_cases hvs : v.severity = s <;> simp [hvs] <;> omega

/-- The counts of a built summary total the length of the vulnerability
list. -/
theorem buildSummary_sum (vulns : List Vulnerability) :
    dictSumVals (buildSummary vulns) = vulns.length := by
  suffices h : ∀ acc, dictSumVals (vulns.foldl
      (fun a v => dictIncrBy a v.severity 1) acc) =
      dictSumVals acc + vulns.length by
    have := h []
    simpa [buildSummary, dictSumVals] using this
  induction vulns with
  | nil =>
    intro acc
    simp
  | cons v rest ih =>
    intro acc
    rw [List.foldl_cons, ih, dictSumVals_incrBy, List.length_cons]
    omega

/-- Every collected `ScanResult` was built by `mkScanResult`: its
summary is the one recomputed from its vulnerability list, and that
list is non-empty. -/
theorem collect_results_mem {d : InputDir} {now : String} {r : ScanResult}
    (h : r ∈ collect_results d now) :
    r.summary = buildSummary r.vulnerabilities ∧ r.vulnerabilities ≠ [] := by
  unfold collect_results at h
  by_cases hd : d.dirExists
  · rw [if_neg (by simp [hd])] at h
    rcases List.mem_append.mp h with h1 | h1
    rcases List.mem_append.mp h1 with h2 | h2
    · obtain ⟨f, _, heq⟩ := List.mem_filterMap.mp h2
      by_cases he : (parse_sarif f.content).isEmpty
      · rw [if_pos he] at heq
        exact Option.noConfusion heq
      · rw [if_neg he] at heq
        obtain rfl := Option.some.inj heq
        exact ⟨rfl, by simpa [List.isEmpty_iff] using he⟩
    · obtain ⟨c, _, heq⟩ := List.mem_filterMap.mp h2
      by_cases he : (parse_npm_audit c).isEmpty
      · rw [if_pos he] at heq
        exact Option.noConfusion heq
      · rw [if_neg he] at heq
        obtain rfl := Option.some.inj heq
        exact ⟨rfl, by simpa [List.isEmpty_iff] using he⟩
    · obtain ⟨f, _, heq⟩ := List.mem_filterMap.mp h1
      by_cases hs : f.suffix == ".json"
      · rw [if_pos hs] at heq
        by_cases he : (parse_trivy_json f.content).isEmpty
        · rw [if_pos he] at heq
          exact Option.noConfusion heq
        · rw [if_neg he] at heq
          obtain rfl := Option.some.inj heq
          exact ⟨rfl, by simpa [List.isEmpty_iff] using he⟩
      · rw [if_neg hs] at heq
        exact Option.noConfusion heq
  · rw [if_pos (by simp [hd])] at h
    simp at h

/-- C4: for every `ScanResult` produced by `collect_results`, the
summary holds, at every severity, the number of vulnerabilities of that
severity, and its counts total the length of the vulnerability list. -/
theorem c4_summary_consistent (d : InputDir) (now : String) (r : ScanResult)
    (h : r ∈ collect_results d now) :
    (∀ s : String, dictGetNat r.summary s 0 =
        r.vulnerabilities.countP (fun v => v.severity == s)) ∧
    dictSumVals r.summary = r.vulnerabilities.length := by
  obtain ⟨hsum, _⟩ := collect_results_mem h
  rw [hsum]
  exact ⟨fun s => buildSummary_get _ s, buildSummary_sum _⟩

/-- C4 witness: the single result collected from the Scenario A
directory satisfies both summary invariants at severity `CRITICAL`. -/
theorem c4_witness :
    dictGetNat (collect_results scenADir ("t")).headI.summary ("CRITICAL") 0 =
      (collect_results scenADir ("t")).headI.vulnerabilities.countP
        (fun v => v.severity == ("CRITICAL")) ∧
    dictSumVals (collect_results scenADir ("t")).headI.summary =
      (collect_results scenADir ("t")).headI.vulnerabilities.length := by
  have hmem : (collect_results scenADir ("t")).headI ∈
      collect_results scenADir ("t") := by
    rw [show collect_results scenADir ("t") =
        (collect_results scenADir ("t")).headI :: [] from rfl]
    exact List.mem_cons_self _ _
  have h := c4_summary_consistent scenADir ("t") _ hmem
  exact ⟨h.1 ("CRITICAL"), h.2⟩

/-- C7: `collect_results` never records a `ScanResult` with an empty
vulnerability list. -/
theorem c7_no_empty_scan_result (d : InputDir) (now : String)
    (r : ScanResult) (h : r ∈ collect_results d now) :
    r.vulnerabilities ≠ [] :=
  (collect_results_mem h).2

/-- C7 witness: the result collected from the Scenario A directory has
a non-empty vulnerability list. -/
theorem c7_witness :
    (collect_results scenADir ("t")).headI.vulnerabilities ≠ [] :=
  c7_no_empty_scan_result scenADir ("t") _
    (by
      rw [show collect_results scenADir ("t") =
          (collect_results scenADir ("t")).headI :: [] from rfl]
      exact List.mem_cons_self _ _)

/-- Adding all entries of a summary into the running totals adds, at
every key, that summary's total for the key. -/
theorem addCounts_get (es : List (String × Nat)) (a : List (String × Nat))
    (s : String) :
    dictGetNat (addCounts a es) s 0 = dictGetNat a s 0 + esum es s := by
  induction es generalizing a with
  | nil => simp [addCounts, esum]
  | cons p rest ih =>
    rw [show addCounts a (p :: rest) =
        addCounts (dictIncrBy a p.1 p.2) rest from rfl]
    rw [ih, dictGetNat_incrBy]
    by_cases hps : p.1 = s <;> simp [esum, List.filter_cons, hps] <;> omega

/-- The report totals read back, at every key, the sum over all scan
results of that result's summary total for the key. -/
theorem reportTotals_get (results : List ScanResult) (s : String) :
    dictGetNat (reportTotals results) s 0 =
      (results.map (fun r => esum r.summary s)).sum := by
  suffices h : ∀ a, dictGetNat (results.foldl
      (fun a r => addCounts a r.summary) a) s 0 =
      dictGetNat a s 0 + (results.map (fun r => esum r.summary s)).sum by
    have := h []
    simpa [reportTotals, dictGetNat] using this
  induction results with
  | nil =>
    intro a
    simp
  | cons r rest ih =>
    intro a
    rw [List.foldl_cons, ih, addCounts_get]
    simp
    omega

/-- In a summary without duplicate keys, the per-key total is exactly
the `get`. -/
theorem esum_eq_get {es : List (String × Nat)} (h : keysNodup es)
    (s : String) : esum es s = dictGetNat es s 0 := by
  induction es with
  | nil => simp [esum, dictGetNat]
  | cons p rest ih =>
    have hnd : (rest.map Prod.fst).Nodup := (List.nodup_cons.mp h).2
    have hnm : p.1 ∉ rest.map Prod.fst := (List.nodup_cons.mp h).1
    rw [dictGetNat_cons]
    by_cases hps : p.1 = s
    · have hz : esum rest s = 0 := by
        subst hps
        unfold esum
        rw [List.filter_eq_nil_iff.mpr ?_]
        · simp
        · intro q hq hbeq
          exact absurd (List.mem_map_of_mem Prod.fst hq)
            (by simpa [show q.1 = p.1 from by simpa using hbeq] using hnm)
      unfold esum at hz ⊢
      simp [List.filter_cons, hps, hz]
    · have ih2 := ih hnd
      unfold esum at ih2 ⊢
      simp [List.filter_cons, hps, ih2]

/-- C3: in every report built by `generate_report` from scan results
whose summaries have no duplicate keys (as the collector always
produces them), the totals mapping reads back, at every severity, the
sum of the per-scanner summary entries for that severity. -/
theorem c3_totals_elementwise (results : List ScanResult)
    (repoEnv branchEnv commitEnv : Option String) (now : String)
    (h : ∀ r ∈ results, keysNodup r.summary) (s : String) :
    dictGetNat (generate_report results repoEnv branchEnv
        commitEnv now).total_vulnerabilities s 0 =
      (results.map (fun r => dictGetNat r.summary s 0)).sum := by
  show dictGetNat (reportTotals results) s 0 = _
  rw [reportTotals_get]
  congr 1
  exact List.map_congr_left (fun r hr => esum_eq_get (h r hr) s)

/-- C3 witness: the totals of a concrete two-scanner report read back
the element-wise sum at severity `HIGH`. -/
theorem c3_witness :
    dictGetNat (generate_report c3Results none none none
        ("t")).total_vulnerabilities ("HIGH") 0 =
      (c3Results.map (fun r => dictGetNat r.summary ("HIGH") 0)).sum :=
  c3_totals_elementwise c3Results none none none ("t")
    (by
      intro r hr
      unfold keysNodup
      rcases List.mem_cons.mp hr with rfl | hr2
      · decide
      · rcases List.mem_singleton.mp hr2 with rfl
        decide)
    ("HIGH")

/-- The level map of `parse_sarif` resolves a string level exactly as
lines 89-90 state. -/
theorem levelBase (lv : String) :
    pyDictGetStr
      [(("error"), ("HIGH")), (("warning"), ("MEDIUM")), (("note"), ("LOW"))]
      (.jstr lv) ("MEDIUM") =
    .ok (if lv == ("error") then ("HIGH")
         else if lv == ("warning") then ("MEDIUM")
         else if lv == ("note") then ("LOW")
         else ("MEDIUM")) := by
  by_cases h1 : lv = "error"
  · simp [pyDictGetStr, List.find?_cons, h1]
  · by_cases h2 : lv = "warning"
    · simp [pyDictGetStr, List.find?_cons, h1, h2, Ne.symm h1]
    · by_cases h3 : lv = "note"
      · simp [pyDictGetStr, List.find?_cons, h1, h2, h3, Ne.symm h1, Ne.symm h2]
      · simp [pyDictGetStr, List.find?_cons, h1, h2, h3,
          Ne.symm h1, Ne.symm h2, Ne.symm h3]

/-- C5: the SARIF severity is resolved in two layers: with no
`security-severity` score the native level maps `error` to HIGH,
`warning` to MEDIUM, `note` to LOW and anything else to MEDIUM; a
numeric score overrides that mapping by thresholds 9.0, 7.0 and 4.0;
and on the concrete Scenario A document (level `error`, score 9.5) the
produced severity is CRITICAL. -/
theorem c5_two_layer_severity :
    (∀ (lv : String) (props : JVal),
        pyContains ("security-severity") props = .ok false →
        sarifSeverity (.jstr lv) props = .ok
          (if lv == ("error") then ("HIGH")
           else if lv == ("warning") then ("MEDIUM")
           else if lv == ("note") then ("LOW")
           else ("MEDIUM"))) ∧
    (∀ (lv : String) (props raw : JVal) (q : ℚ),
        pyContains ("security-severity") props = .ok true →
        objIndex props ("security-severity") = .ok raw →
        pyFloat raw = .ok q →
        sarifSeverity (.jstr lv) props = .ok
          (if q ≥ 9 then ("CRITICAL")
           else if q ≥ 7 then ("HIGH")
           else if q ≥ 4 then ("MEDIUM")
           else ("LOW"))) ∧
    (parse_sarif (some scenADoc)).map (fun v => v.severity) = [("CRITICAL")] := by
  refine ⟨?_, ?_, by decide⟩
  · intro lv props hc
    simp only [sarifSeverity, levelBase, hc]
  · intro lv props raw q hc hidx hf
    simp only [sarifSeverity, levelBase, hc, hidx, hf]

/-- C5 witness: a score-free `error` level maps to HIGH, and the score
9.5 overrides a `warning` level to CRITICAL. -/
theorem c5_witness :
    sarifSeverity (.jstr ("error")) (.jobj []) = .ok
      (if ("error" : String) == ("error") then ("HIGH")
       else if ("error" : String) == ("warning") then ("MEDIUM")
       else if ("error" : String) == ("note") then ("LOW")
       else ("MEDIUM")) ∧
    sarifSeverity (.jstr ("warning")) c5props = .ok
      (if mkRat 19 2 ≥ 9 then ("CRITICAL")
       else if mkRat 19 2 ≥ 7 then ("HIGH")
       else if mkRat 19 2 ≥ 4 then ("MEDIUM")
       else ("LOW")) :=
  ⟨c5_two_layer_severity.1 ("error") (.jobj []) rfl,
   c5_two_layer_severity.2.1 ("warning") c5props (.jstr ("9.5"))
     (mkRat 19 2) rfl rfl rfl⟩

/-- The data of an appended string is the appended data. -/
theorem strAppendData (a b : String) : (a ++ b).data = a.data ++ b.data := rfl

/-- Rule 1's message never equals the reassurance message (they start
with different characters). -/
theorem criticalMsg_ne_reassurance (n : Nat) :
    criticalMsg n ≠ reassuranceMsg := by
  intro he
  have h1 : (criticalMsg n).data.head? = some ('C' : Char) := rfl
  have h2 : reassuranceMsg.data.head? = some ('N' : Char) := rfl
  rw [he, h2] at h1
  exact absurd (Option.some.inj h1) (by decide)

/-- Rule 2's message never equals the reassurance message. -/
theorem highMsg_ne_reassurance (n : Nat) : highMsg n ≠ reassuranceMsg := by
  intro he
  have h1 : (highMsg n).data.head? = some ('H' : Char) := rfl
  have h2 : reassuranceMsg.data.head? = some ('N' : Char) := rfl
  rw [he, h2] at h1
  exact absurd (Option.some.inj h1) (by decide)

/-- Rule 3's message never equals the reassurance message. -/
theorem semgrepMsg_ne_reassurance : semgrepMsg ≠ reassuranceMsg := by decide

/-- C6: the recommendation list contains the reassurance message
exactly when no critical finding, no high finding, and some scanner
name containing `semgrep` rule out rules 1-3; and whenever it is
present, the list is exactly the single reassurance message. -/
theorem c6_reassurance_mutually_exclusive (results : List ScanResult) :
    (reassuranceMsg ∈ generateRecommendations results ↔
      ((results.map (fun r => dictGetNat r.summary ("CRITICAL") 0)).sum = 0 ∧
       (results.map (fun r => dictGetNat r.summary ("HIGH") 0)).sum = 0 ∧
       (results.map (fun r => r.scanner)).any hasSemgrep = true)) ∧
    (reassuranceMsg ∈ generateRecommendations results →
      generateRecommendations results = [reassuranceMsg]) := by
  by_cases h1 : (results.map (fun r => dictGetNat r.summary ("CRITICAL") 0)).sum > 0 <;>
    by_cases h2 : (results.map (fun r => dictGetNat r.summary ("HIGH") 0)).sum > 0 <;>
    by_cases h3 : (results.map (fun r => r.scanner)).any hasSemgrep = true <;>
    simp [generateRecommendations, h1, h2, h3,
      criticalMsg_ne_reassurance, highMsg_ne_reassurance,
      semgrepMsg_ne_reassurance, Ne.symm (criticalMsg_ne_reassurance _),
      Ne.symm (highMsg_ne_reassurance _), Ne.symm semgrepMsg_ne_reassurance] <;>
    omega

/-- C6 witness: on a semgrep-named scanner batch holding one LOW
finding the recommendation list is exactly the reassurance message. -/
theorem c6_witness :
    generateRecommendations c6Results = [reassuranceMsg] :=
  (c6_reassurance_mutually_exclusive c6Results).2
    ((c6_reassurance_mutually_exclusive c6Results).1.mpr
      ⟨by decide, by decide, by decide⟩)

/-- Every reference kept by the SARIF tag filter is a string starting
with `http`. -/
theorem sarifRefs_ok {tags : List JVal} {l : List JVal}
    (h : sarifRefs tags = .ok l) :
    ∀ x ∈ l, ∃ s, x = .jstr s ∧ strStarts s ("http") = true := by
  induction tags generalizing l with
  | nil =>
    cases h
    intro x hx
    simp at hx
  | cons t ts ih =>
    rw [sarifRefs] at h
    cases hsw : pyStartswith t ("http") with
    | error e =>
      rw [hsw] at h
      exact Except.noConfusion h
    | ok b =>
      rw [hsw] at h
      cases hrest : sarifRefs ts with
      | error e =>
        rw [hrest] at h
        exact Except.noConfusion h
      | ok rest =>
        rw [hrest] at h
        obtain ⟨s, rfl, hb⟩ : ∃ s, t = .jstr s ∧ (strStarts s ("http")) = b := by
          cases t <;> simp [pyStartswith] at hsw <;> try exact absurd hsw (by simp)
          · exact ⟨_, rfl, hsw⟩
        cases h
        intro x hx
        cases b with
        | true =>
          rcases List.mem_cons.mp (by simpa using hx) with rfl | hx2
          · exact ⟨s, rfl, hb⟩
          · exact ih hrest x hx2
        | false => exact ih hrest x (by simpa using hx)

/-- Every finding produced by the SARIF result loop has its references
drawn from the tag filter. -/
theorem sarifResult_refs {tool_name : JVal} {rules : List (JVal × JVal)}
    {result : JVal} {v : Vulnerability}
    (h : sarifResult tool_name rules result = .ok v) :
    ∃ l, v.references = .jarr l ∧
      ∀ x ∈ l, ∃ s, x = .jstr s ∧ strStarts s ("http") = true := by
  simp only [sarifResult, ebind_def, ebind_ok, epure_ok] at h
  obtain ⟨a1, e1, a2, e2, a3, e3, a4, e4, sev, hsev, a6, e6, a7, e7, a8, e8,
    a9, e9, a10, e10, a11, e11, a12, e12, a13, e13, a14, e14, a15, e15,
    a16, e16, a17, e17, a18, e18, a19, e19, a20, e20, a21, e21, a22, e22,
    a23, e23, refs, hrefs, hfin⟩ := h
  subst hfin
  exact ⟨refs, rfl, sarifRefs_ok hrefs⟩

/-- Every finding of `parse_sarif` arises from one result of one run. -/
theorem parse_sarif_from_result {doc : Option JVal} {v : Vulnerability}
    (h : v ∈ parse_sarif doc) :
    ∃ tool_name rules result, sarifResult tool_name rules result = .ok v := by
  cases doc with
  | none => simp [parse_sarif, parse_sarifE] at h
  | some data =>
    have h2 : v ∈ (match objGetD data ("runs") (.jarr []) with
        | .error _ => (([] : List Vulnerability), true)
        | .ok runsRaw =>
          match iterList runsRaw with
          | .error _ => ([], true)
          | .ok runs =>
            nestedFold sarifRunPre (fun ctx => sarifResult ctx.1 ctx.2) runs []).1 := h
    cases hg : objGetD data ("runs") (.jarr []) with
    | error e =>
      rw [hg] at h2
      simp at h2
    | ok runsRaw =>
      rw [hg] at h2
      have h3 : v ∈ (match iterList runsRaw with
          | .error _ => (([] : List Vulnerability), true)
          | .ok runs =>
            nestedFold sarifRunPre (fun ctx => sarifResult ctx.1 ctx.2) runs []).1 := h2
      cases hi : iterList runsRaw with
      | error e =>
        rw [hi] at h3
        simp at h3
      | ok runs =>
        rw [hi] at h3
        rcases nestedFold_mem h3 with h1 | ⟨a, _, ctx, items, _, it, _, hok⟩
        · simp at h1
        · exact ⟨ctx.1, ctx.2, it, hok⟩

/-- C8 (amended): every reference of a `parse_sarif` finding is a
string that looks like a URL (starts with `http`) — the tag filter
keeps only such values.  The claim's extension to the other adapters
fails: the npm adapter records the advisory's raw `url` value, which
defaults to the empty string (see the counterexample), and the trivy
adapter copies the first three `References` entries unfiltered. -/
theorem c8_sarif_references_urls (doc : Option JVal) (v : Vulnerability)
    (h : v ∈ parse_sarif doc) :
    ∃ l, v.references = .jarr l ∧
      ∀ x ∈ l, ∃ s, x = .jstr s ∧ strStarts s ("http") = true := by
  obtain ⟨tn, rules, r, hok⟩ := parse_sarif_from_result h
  exact sarifResult_refs hok

/-- C8 counterexample: the advisory without a `url` yields the
reference list `[""]`, and the empty string does not look like a
URL. -/
theorem c8_counterexample :
    (∃ v ∈ parse_npm_audit (some npmNoUrlDoc),
        v.references = .jarr [.jstr ("")]) ∧
    strStarts ("") ("http") = false := by
  refine ⟨⟨(parse_npm_audit (some npmNoUrlDoc)).headI, ?_, rfl⟩, rfl⟩
  rw [show parse_npm_audit (some npmNoUrlDoc) =
      (parse_npm_audit (some npmNoUrlDoc)).headI :: [] from rfl]
  exact List.mem_cons_self _ _

/-- C8 witness: the Scenario A finding's references form a list of
`http`-prefixed strings (the non-URL tag `security` was filtered
out). -/
theorem c8_witness :
    ∃ l, (parse_sarif (some scenADoc)).headI.references = .jarr l ∧
      ∀ x ∈ l, ∃ s, x = .jstr s ∧ strStarts s ("http") = true :=
  c8_sarif_references_urls (some scenADoc) _
    (by
      rw [show parse_sarif (some scenADoc) =
          (parse_sarif (some scenADoc)).headI :: [] from rfl]
      exact List.mem_cons_self _ _)

/-- A string whose data starts with `pre` keeps that property under
appending. -/
theorem dataPre_append {s : String} {pre : List Char} (x : String)
    (h : ∃ cs, s.data = pre ++ cs) : ∃ cs, (s ++ x).data = pre ++ cs := by
  obtain ⟨cs, hcs⟩ := h
  exact ⟨cs ++ x.data, by rw [strAppendData, hcs, List.append_assoc]⟩

/-- A line whose data starts with the bullet marker is a bullet. -/
theorem isBullet_true_of_pre {s : String}
    (h : ∃ cs, s.data = (("- **").data) ++ cs) : isBullet s = true := by
  obtain ⟨cs, hcs⟩ := h
  unfold isBullet
  rw [hcs, List.isPrefixOf_iff_prefix]
  exact List.prefix_append _ _

/-- A line whose first character is not `-` is not a bullet. -/
theorem isBullet_false_of_head {s : String} {c : Char} {cs : List Char}
    (h : s.data = c :: cs) (hc : c ≠ ('-' : Char)) : isBullet s = false := by
  unfold isBullet
  rw [h, show (("- **").data) = ('-') :: (' ') :: ('*') :: ('*') :: [] from rfl]
  simp [List.isPrefixOf, Ne.symm hc]

/-- The empty line is not a bullet. -/
theorem isBullet_false_of_nil {s : String} (h : s.data = []) :
    isBullet s = false := by
  unfold isBullet
  rw [h, show (("- **").data) = ('-') :: (' ') :: ('*') :: ('*') :: [] from rfl]
  rfl

/-- The first three characters of a string whose data starts with a
three-character prefix. -/
theorem take3_of_pre {s : String} {c1 c2 c3 : Char} {cs : List Char}
    (h : s.data = c1 :: c2 :: c3 :: cs) : s.data.take 3 = [c1, c2, c3] := by
  rw [h]
  rfl

/-- Shape facts for a finding's title bullet. -/
theorem line_title (t i : String) :
    isBullet ((("- **" ++ t) ++ "** (") ++ i ++ ")") = true ∧
    (((("- **" ++ t) ++ "** (") ++ i ++ ")").data).take 3 =
      [('-'), (' '), ('*')] := by
  constructor
  · exact isBullet_true_of_pre
      (dataPre_append _ (dataPre_append _ (dataPre_append _ ⟨_, rfl⟩)))
  · obtain ⟨cs, hcs⟩ : ∃ cs, ((("- **" ++ t) ++ "** (") ++ i ++ ")").data =
        [('-'), (' '), ('*')] ++ cs :=
      dataPre_append _ (dataPre_append _ (dataPre_append _ ⟨_, rfl⟩))
    exact take3_of_pre hcs

/-- Shape facts for a finding's file line. -/
theorem line_file (a b : String) :
    isBullet ((("  - File: `" ++ a) ++ "`:") ++ b) = false ∧
    (((("  - File: `" ++ a) ++ "`:") ++ b).data).take 3 =
      [(' '), (' '), ('-')] := by
  obtain ⟨cs, hcs⟩ : ∃ cs, ((("  - File: `" ++ a) ++ "`:") ++ b).data =
      [(' '), (' '), ('-')] ++ cs :=
    dataPre_append _ (dataPre_append _ ⟨_, rfl⟩)
  exact ⟨isBullet_false_of_head hcs (by decide), take3_of_pre hcs⟩

/-- Shape facts for a finding's remediation line. -/
theorem line_fix (a : String) :
    isBullet ("  - Fix: " ++ a) = false ∧
    (("  - Fix: " ++ a).data).take 3 = [(' '), (' '), ('-')] := by
  obtain ⟨cs, hcs⟩ : ∃ cs, ("  - Fix: " ++ a).data =
      [(' '), (' '), ('-')] ++ cs := dataPre_append _ ⟨_, rfl⟩
  exact ⟨isBullet_false_of_head hcs (by decide), take3_of_pre hcs⟩

/-- Shape facts for the blank separator line. -/
theorem line_blank :
    isBullet ("") = false ∧ (("" : String).data).take 3 = [] :=
  ⟨isBullet_false_of_nil rfl, rfl⟩

/-- Shape facts for a severity-group heading. -/
theorem line_group_heading (s n : String) :
    isBullet ((("#### " ++ s) ++ " (") ++ n ++ ")") = false ∧
    (((("#### " ++ s) ++ " (") ++ n ++ ")").data).take 3 =
      [('#'), ('#'), ('#')] := by
  obtain ⟨cs, hcs⟩ : ∃ cs, ((("#### " ++ s) ++ " (") ++ n ++ ")").data =
      [('#'), ('#'), ('#')] ++ cs :=
    dataPre_append _ (dataPre_append _ (dataPre_append _ ⟨_, rfl⟩))
  exact ⟨isBullet_false_of_head hcs (by decide), take3_of_pre hcs⟩

/-- Shape facts for a scanner heading. -/
theorem line_scanner_heading (s : String) :
    isBullet ("### " ++ s) = false := by
  obtain ⟨cs, hcs⟩ : ∃ cs, ("### " ++ s).data = [('#'), ('#'), ('#')] ++ cs :=
    dataPre_append _ ⟨_, rfl⟩
  exact isBullet_false_of_head hcs (by decide)

/-- Shape facts for the no-findings note. -/
theorem line_no_findings : isBullet ("No vulnerabilities found.") = false :=
  @isBullet_false_of_head _ ('N') _ rfl (by decide)

/-- Shape facts for the truncation suffix. -/
theorem line_more (n : Nat) :
    ((moreLine n).data).take 3 = [(' '), (' '), ('*')] := by
  obtain ⟨cs, hcs⟩ : ∃ cs, (moreLine n).data = [(' '), (' '), ('*')] ++ cs := by
    unfold moreLine
    exact dataPre_append _ (dataPre_append _ ⟨_, rfl⟩)
  exact take3_of_pre hcs

/-- Every line produced by a successful `linesFor` pass belongs to the
block produced for one of the inputs. -/
theorem linesFor_mem {α : Type} {g : α → Except String (List String)}
    {l : List α} {out : List String} (h : linesFor g l = .ok out)
    {x : String} (hx : x ∈ out) :
    ∃ a ∈ l, ∃ o, g a = .ok o ∧ x ∈ o := by
  induction l generalizing out with
  | nil =>
    cases h
    simp at hx
  | cons a rest ih =>
    rw [linesFor] at h
    cases hga : g a with
    | error e =>
      rw [hga] at h
      exact Except.noConfusion h
    | ok ls =>
      rw [hga] at h
      cases hrest : linesFor g rest with
      | error e =>
        rw [hrest] at h
        exact Except.noConfusion h
      | ok rs =>
        rw [hrest] at h
        cases h
        rcases List.mem_append.mp hx with h1 | h1
        · exact ⟨a, List.mem_cons_self _ _, ls, hga, h1⟩
        · obtain ⟨b, hb, o, hgo, hxo⟩ := ih hrest h1
          exact ⟨b, List.mem_cons_of_mem _ hb, o, hgo, hxo⟩

/-- Counting matching lines over a successful `linesFor` pass sums the
per-input counts. -/
theorem linesFor_countP {α : Type} (p : String → Bool) (f : α → Nat)
    {g : α → Except String (List String)} {l : List α} {out : List String}
    (h : linesFor g l = .ok out)
    (hcnt : ∀ a ∈ l, ∀ o, g a = .ok o → o.countP p = f a) :
    out.countP p = (l.map f).sum := by
  induction l generalizing out with
  | nil =>
    cases h
    simp
  | cons a rest ih =>
    rw [linesFor] at h
    cases hga : g a with
    | error e =>
      rw [hga] at h
      exact Except.noConfusion h
    | ok ls =>
      rw [hga] at h
      cases hrest : linesFor g rest with
      | error e =>
        rw [hrest] at h
        exact Except.noConfusion h
      | ok rs =>
        rw [hrest] at h
        cases h
        rw [List.countP_append, hcnt a (List.mem_cons_self _ _) ls hga,
          ih hrest (fun b hb => hcnt b (List.mem_cons_of_mem _ hb))]
        simp

/-- Each listed finding contributes exactly one bullet, and none of its
lines can be mistaken for the truncation suffix. -/
theorem vulnLines_shape {v : Vulnerability} {o : List String}
    (h : vulnLines v = .ok o) :
    o.countP isBullet = 1 ∧
    ∀ l ∈ o, (l.data).take 3 ≠ [(' '), (' '), ('*')] := by
  simp only [vulnLines] at h
  cases hfix : (if pyTruthy v.remediation then
      (pySlice v.remediation 100).map (fun r => ["  - Fix: " ++ pyStr r])
    else .ok []) with
  | error e =>
    rw [hfix] at h
    exact Except.noConfusion h
  | ok fixLs =>
    rw [hfix] at h
    cases h
    have hfix2 : fixLs = [] ∨ ∃ s, fixLs = ["  - Fix: " ++ s] := by
      by_cases ht : pyTruthy v.remediation
      · rw [if_pos ht] at hfix
        cases hs : pySlice v.remediation 100 with
        | error e =>
          rw [hs] at hfix
          exact Except.noConfusion hfix
        | ok r =>
          rw [hs] at hfix
          cases hfix
          exact Or.inr ⟨pyStr r, rfl⟩
      · rw [if_neg ht] at hfix
        cases hfix
        exact Or.inl rfl
    rcases hfix2 with rfl | ⟨s, rfl⟩ <;> by_cases hfp : pyTruthy v.file_path <;>
      constructor <;>
      simp [hfp, List.countP_append, List.countP_cons, List.countP_nil,
        (line_title _ _).1, (line_file _ _).1, (line_fix _).1, line_blank.1] <;>
      intro l hl <;>
      rcases hl with rfl | rfl | rfl | rfl | rfl <;>
      simp [(line_title _ _).2, (line_file _ _).2, (line_fix _).2, line_blank.2]

/-- The truncation suffix is not a bullet line. -/
theorem line_more_bullet (n : Nat) : isBullet (moreLine n) = false := by
  obtain ⟨cs, hcs⟩ : ∃ cs, (moreLine n).data = [(' '), (' '), ('*')] ++ cs := by
    unfold moreLine
    exact dataPre_append _ (dataPre_append _ ⟨_, rfl⟩)
  exact isBullet_false_of_head hcs (by decide)

/-- One severity group lists exactly `min 10 n` findings (one bullet
each) and carries the `...and N more` suffix exactly when the group
holds more than 10 findings, with `N` the number omitted. -/
theorem groupLines_spec {sev : String} {vulns : List Vulnerability}
    {L : List String} (h : groupLines sev vulns = .ok L) :
    L.countP isBullet = min 10 vulns.length ∧
    (moreLine (vulns.length - 10) ∈ L ↔ 10 < vulns.length) := by
  unfold groupLines at h
  by_cases he : vulns.isEmpty
  · rw [if_pos he] at h
    cases h
    have hlen : vulns.length = 0 := by
      simpa [List.isEmpty_iff, List.length_eq_zero] using he
    constructor
    · simp [hlen]
    · simp [hlen]
  · rw [if_neg he] at h
    cases hbody : linesFor vulnLines (vulns.take 10) with
    | error e =>
      rw [hbody] at h
      exact Except.noConfusion h
    | ok body =>
      rw [hbody] at h
      cases h
      have hcount : body.countP isBullet = (vulns.take 10).length := by
        rw [linesFor_countP isBullet (fun _ => 1) hbody
          (fun a _ o ho => (vulnLines_shape ho).1)]
        simp
      have htake3 : ∀ l ∈ body, (l.data).take 3 ≠ [(' '), (' '), ('*')] := by
        intro l hl
        obtain ⟨a, _, o, ho, hlo⟩ := linesFor_mem hbody hl
        exact (vulnLines_shape ho).2 l hlo
      have hcount2 : body.countP isBullet = min 10 vulns.length := by
        rw [hcount, List.length_take]
      have hmb : isBullet ("  *...and " ++ toString (vulns.length - 10) ++
          " more*") = false := line_more_bullet (vulns.length - 10)
      constructor
      · by_cases hgt : vulns.length > 10 <;>
          simp [hgt, List.countP_append, List.countP_cons, List.countP_nil,
            hcount2, (line_group_heading _ _).1, line_blank.1, hmb]
      · constructor
        · intro hmem
          by_contra hle
          have hmore : ¬ vulns.length > 10 := hle
          rw [if_neg hmore] at hmem
          simp only [List.mem_append, List.mem_cons, List.not_mem_nil,
            or_false] at hmem
          rcases hmem with (h1 | h1) | h1
          · have h4 := congrArg (fun s => ((s : String).data).take 3) h1
            simp only [line_more, (line_group_heading _ _).2] at h4
            exact absurd h4 (by decide)
          · have h4 := congrArg (fun s => ((s : String).data).take 3) h1
            simp only [line_more, line_blank.2] at h4
            exact absurd h4 (by decide)
          · exact (htake3 _ h1) (line_more _)
        · intro hgt
          rw [if_pos hgt]
          simp [moreLine]

/-- Lookup in a cons cell of the grouping dict. -/
theorem groupsGet_cons (p : String × List Vulnerability)
    (l : List (String × List Vulnerability)) (s : String) :
    groupsGet (p :: l) s = if p.1 == s then p.2 else groupsGet l s := by
  by_cases h : p.1 = s <;> simp [groupsGet, List.find?_cons, h]

/-- Appending a value to the group of key `k` extends exactly the list
read back at `k`. -/
theorem dictAppendAt_get (l : List (String × List Vulnerability))
    (k : String) (v : Vulnerability) (s : String) :
    groupsGet (buildGroups.dictAppendAt l k v) s =
      groupsGet l s ++ (if k == s then [v] else []) := by
  induction l with
  | nil =>
    show groupsGet [(k, [v])] s = groupsGet [] s ++ _
    rw [groupsGet_cons]
    by_cases h : k = s <;> simp [h, groupsGet]
  | cons p rest ih =>
    show groupsGet (if p.1 == k then (p.1, p.2 ++ [v]) :: rest
        else p :: buildGroups.dictAppendAt rest k v) s = _
    by_cases hpk : p.1 = k
    · rw [if_pos (by simp [hpk])]
      rw [groupsGet_cons, groupsGet_cons]
      by_cases hps : p.1 = s
      · have hks : (k == s) = true := by simp [← hpk, hps]
        simp [hps, hks]
      · have hks : (k == s) = false := by
          simp only [beq_eq_false_iff_ne, ne_eq]
          intro hc
          exact hps (hpk.trans hc)
        simp [hps, hks]
    · rw [if_neg (by simp [hpk])]
      rw [groupsGet_cons, groupsGet_cons, ih]
      by_cases hps : p.1 = s
      · have hks : (k == s) = false := by
          simp only [beq_eq_false_iff_ne, ne_eq]
          intro hc
          exact hpk (hps.trans hc.symm)
        simp [hps, hks]
      · simp [hps]

/-- The grouping dict reads back, at every key, the findings of that
severity in list order. -/
theorem buildGroups_get (vulns : List Vulnerability) (s : String) :
    groupsGet (buildGroups vulns) s =
      vulns.filter (fun v => v.severity == s) := by
  suffices h : ∀ acc, groupsGet (vulns.foldl
      (fun acc v => buildGroups.dictAppendAt acc v.severity v) acc) s =
      groupsGet acc s ++ vulns.filter (fun v => v.severity == s) by
    have := h []
    simpa [buildGroups, groupsGet] using this
  induction vulns with
  | nil =>
    intro acc
    simp
  | cons v rest ih =>
    intro acc
    rw [List.foldl_cons, ih, dictAppendAt_get, List.filter_cons]
    by_cases hvs : v.severity = s <;> simp [hvs]

/-- A scanner's detail section renders one bullet per listed finding:
summing, over the canonical severities only, the capped count of that
scanner's findings of each severity. -/
theorem sectionLines_countP {r : ScanResult} {L : List String}
    (h : sectionLines r = .ok L) :
    L.countP isBullet =
      (SEVERITY_ORDER.map (fun c =>
        min 10 (r.vulnerabilities.countP (fun v => v.severity == c)))).sum := by
  unfold sectionLines at h
  by_cases he : r.vulnerabilities.isEmpty
  · rw [if_pos he] at h
    cases h
    have hlen : r.vulnerabilities = [] := by simpa [List.isEmpty_iff] using he
    simp [List.countP_cons, List.countP_nil, line_scanner_heading,
      line_blank.1, line_no_findings, hlen, SEVERITY_ORDER]
  · rw [if_neg he] at h
    cases hgs : linesFor
        (fun s => groupLines s (groupsGet (buildGroups r.vulnerabilities) s))
        SEVERITY_ORDER with
    | error e =>
      rw [hgs] at h
      exact Except.noConfusion h
    | ok gs =>
      rw [hgs] at h
      cases h
      have hg : gs.countP isBullet = (SEVERITY_ORDER.map (fun c =>
          min 10 (groupsGet (buildGroups r.vulnerabilities) c).length)).sum :=
        linesFor_countP isBullet _ hgs
          (fun a _ o ho => (groupLines_spec ho).1)
      rw [List.countP_append, hg]
      have hmapeq : (SEVERITY_ORDER.map (fun c =>
          min 10 (groupsGet (buildGroups r.vulnerabilities) c).length)) =
          (SEVERITY_ORDER.map (fun c =>
            min 10 (r.vulnerabilities.countP (fun v => v.severity == c)))) := by
        apply List.map_congr_left
        intro c _
        rw [buildGroups_get, List.countP_eq_length_filter]
      rw [hmapeq]
      simp [List.countP_cons, List.countP_nil, line_scanner_heading,
        line_blank.1]

/-- C9: the human-readable output opens with the fixed header followed
by exactly one summary-table row per canonical severity in the fixed
order CRITICAL, HIGH, MEDIUM, LOW, INFO, whatever severities occurred;
and each per-scanner severity group lists at most the first 10 findings
(one bullet each) with a `...and N more` suffix exactly when the group
holds more than 10, `N` being the number omitted. -/
theorem c9_fixed_table_and_truncation :
    (∀ (R : SecurityReport) (L : List String),
        output_markdown_lines R = .ok L →
        ∃ rest, L = mdHeader R ++ SEVERITY_ORDER.map (fun severity =>
          "| " ++ severity ++ " | " ++
          toString (dictGetNat R.total_vulnerabilities severity 0) ++ " |") ++
          rest) ∧
    (∀ (sev : String) (vulns : List Vulnerability) (L : List String),
        groupLines sev vulns = .ok L →
        L.countP isBullet = min 10 vulns.length ∧
        (moreLine (vulns.length - 10) ∈ L ↔ 10 < vulns.length)) := by
  constructor
  · intro R L h
    unfold output_markdown_lines at h
    cases hs : linesFor sectionLines R.scan_results with
    | error e =>
      rw [hs] at h
      exact Except.noConfusion h
    | ok sections =>
      rw [hs] at h
      cases h
      exact ⟨_, rfl⟩
  · intro sev vulns L h
    exact groupLines_spec h

/-- C9 witness: the concrete two-scanner report opens with the five
fixed table rows, and a 12-finding group lists 10 bullets and carries
the `...and 2 more` suffix. -/
theorem c9_witness :
    (∃ rest, w9Lines = mdHeader c9Report ++ SEVERITY_ORDER.map (fun severity =>
        "| " ++ severity ++ " | " ++
        toString (dictGetNat c9Report.total_vulnerabilities severity 0) ++
        " |") ++ rest) ∧
    (w9GroupLines.countP isBullet = min 10 c9Group.length ∧
      (moreLine (c9Group.length - 10) ∈ w9GroupLines ↔ 10 < c9Group.length)) :=
  ⟨c9_fixed_table_and_truncation.1 c9Report w9Lines rfl,
   c9_fixed_table_and_truncation.2 ("HIGH") c9Group w9GroupLines rfl⟩

/-- C10: a severity outside the canonical five is still counted under
its own key by the summary construction and by the totals accumulation,
yet the rendered detail sections draw their bullets only from the five
canonical groups (and the summary table iterates only `SEVERITY_ORDER`,
see C9), so such a finding is counted but never listed. -/
theorem c10_adhoc_key_counted_not_rendered :
    (∀ s : String, s ∉ SEVERITY_ORDER →
      (∀ vulns : List Vulnerability,
          dictGetNat (buildSummary vulns) s 0 =
            vulns.countP (fun v => v.severity == s)) ∧
      (∀ results : List ScanResult, (∀ r ∈ results, keysNodup r.summary) →
          dictGetNat (reportTotals results) s 0 =
            (results.map (fun r => dictGetNat r.summary s 0)).sum)) ∧
    (∀ (r : ScanResult) (L : List String), sectionLines r = .ok L →
        L.countP isBullet = (SEVERITY_ORDER.map (fun c =>
          min 10 (r.vulnerabilities.countP (fun v => v.severity == c)))).sum) := by
  constructor
  · intro s _
    refine ⟨fun vulns => buildSummary_get vulns s, fun results hnd => ?_⟩
    rw [reportTotals_get]
    congr 1
    exact List.map_congr_left (fun r hr => esum_eq_get (hnd r hr) s)
  · intro r L h
    exact sectionLines_countP h

/-- C10 witness: the `UNKNOWN` finding is counted in its summary and in
the report totals, while its scanner's section renders zero bullets. -/
theorem c10_witness :
    dictGetNat (buildSummary [c10Vuln]) ("UNKNOWN") 0 =
      [c10Vuln].countP (fun v => v.severity == ("UNKNOWN")) ∧
    dictGetNat (reportTotals [c10Result]) ("UNKNOWN") 0 =
      ([c10Result].map (fun r => dictGetNat r.summary ("UNKNOWN") 0)).sum ∧
    w10Section.countP isBullet = (SEVERITY_ORDER.map (fun c =>
      min 10 (c10Result.vulnerabilities.countP
        (fun v => v.severity == c)))).sum :=
  ⟨((c10_adhoc_key_counted_not_rendered.1 ("UNKNOWN") (by decide)).1 [c10Vuln]),
   ((c10_adhoc_key_counted_not_rendered.1 ("UNKNOWN") (by decide)).2 [c10Result]
     (by
       intro r hr
       rcases List.mem_singleton.mp hr with rfl
       unfold keysNodup
       decide)),
   (c10_adhoc_key_counted_not_rendered.2 c10Result w10Section rfl)⟩
